import Mathlib

/-!
# Shallow embedding of the vesti parser and code generator

This file embeds the core of the vesti source-to-source compiler:
the recursive-descent parser `src/parser/mod.rs` and the AST-to-LaTeX
renderer `src/codegen.rs`.

The tokenizer is an external collaborator (it only hands the parser one
token of lookahead at a time), so a parse input is an arbitrary finite
list of tokens; peeking an exhausted list yields an end-of-file token,
matching the lexer contract that the token sequence ends in EOF tokens.
The parser's recursion is made total with a fuel parameter; running out
of fuel is a distinguished outcome (`PRes.noFuel`) that is never a
behavior of the source program.
-/

set_option linter.unusedVariables false

/-- Source span attached to a token.  The parser treats spans opaquely
(it only copies them into errors), so they are modelled as opaque
natural-number identifiers. -/
abbrev Span := Nat

/-- Token type tags of the lexer (`TokenType` in the source), the closed
set of tags the parser dispatches on. -/
inductive TokenType where
  | Docclass | Import | StartDoc | NonStopMode | DocumentStartMode
  | Useenv | Begenv | Endenv
  | MathTextStart | MathTextEnd
  | FunctionDef | LongFunctionDef | OuterFunctionDef | LongOuterFunctionDef
  | EFunctionDef | LongEFunctionDef | OuterEFunctionDef | LongOuterEFunctionDef
  | GFunctionDef | LongGFunctionDef | OuterGFunctionDef | LongOuterGFunctionDef
  | XFunctionDef | LongXFunctionDef | OuterXFunctionDef | LongOuterXFunctionDef
  | EndDefinition | Defenv | Redefenv | EndsWith
  | LatexFunction | RawLatex | Integer | Float
  | TextMathStart | TextMathEnd | InlineMathStart | InlineMathEnd
  | Superscript | Subscript
  | Lbrace | Rbrace | Lparen | Rparen | Lsqbrace | Rsqbrace | OptionalBrace
  | Star | Comma | ArgSpliter | FracDefiner
  | Space | Tab | Newline
  | Text | Deprecated | Illegal | Eof
  deriving DecidableEq

/-- One lexer token: `{type, literal, span}`. -/
structure Token where
  toktype : TokenType := .Eof
  literal : String := ""
  span : Span := 0
  deriving DecidableEq

/-- Modelled from the spec: the lexer's token module is not under `src/`;
per the spec, the 16 macro-definition styles form the cross product of
long/outer modifiers with plain/expand/global/expand-global definer
kinds, represented as a flag set.  `FunctionDefKind` is that flag
record; `or` is flag union (bitflags `|`) and `hasProperty` the
flags-contained test (bitflags `contains`). -/
structure FunctionDefKind where
  long : Bool := false
  outer : Bool := false
  expand : Bool := false
  global : Bool := false
  deriving DecidableEq

def FunctionDefKind.LONG : FunctionDefKind := { long := true }

def FunctionDefKind.OUTER : FunctionDefKind := { outer := true }

def FunctionDefKind.EXPAND : FunctionDefKind := { expand := true }

def FunctionDefKind.GLOBAL : FunctionDefKind := { global := true }

/-- Flag union, modelling the bitflags `|` operator. -/
def FunctionDefKind.or (a b : FunctionDefKind) : FunctionDefKind :=
  ⟨a.long || b.long, a.outer || b.outer, a.expand || b.expand, a.global || b.global⟩

/-- Flags-contained test, modelling bitflags `has_property`. -/
def FunctionDefKind.hasProperty (k p : FunctionDefKind) : Bool :=
  (!p.long || k.long) && (!p.outer || k.outer) &&
  (!p.expand || k.expand) && (!p.global || k.global)

/-- Argument kind of a LaTeX command/environment argument (`ArgNeed`). -/
inductive ArgNeed where
  | MainArg | Optional | StarArg
  deriving DecidableEq

/-- Math-region rendering style (`MathState`). -/
inductive MathState where
  | Text | Inline
  deriving DecidableEq

/-- Math delimiter rendering style (`DelimiterKind`). -/
inductive DelimiterKind where
  | Default | LeftBig | RightBig
  deriving DecidableEq

/-- Whitespace trim flags (`TrimWhitespace`); `tEnd` is the Rust field
`end` (a Lean keyword). -/
structure TrimWhitespace where
  start : Bool
  mid : Option Bool
  tEnd : Bool
  deriving DecidableEq

/-- The AST statement variants (`parser/ast.rs` `Statement`), with the
fields the code generator consumes.  The floating-point literal keeps
its source text: no claim depends on `f64` values or their formatting. -/
inductive Statement where
  | NopStmt
  | NonStopMode
  | ImportExpl3Pkg
  | MakeAtLetter
  | MakeAtOther
  | Latex3On
  | Latex3Off
  | DocumentClass (name : String) (options : Option (List (List Statement)))
  | Usepackage (name : String) (options : Option (List (List Statement)))
  | MultiUsepackages (pkgs : List Statement)
  | ImportVesti (filename : String)
  | ImportFile (filename : String)
  | DocumentStart
  | DocumentEnd
  | MainText (s : String)
  | BracedStmt (inner : List Statement)
  | MathDelimiter (delimiter : String) (kind : DelimiterKind)
  | Fraction (numerator : List Statement) (denominator : List Statement)
  | PlainTextInMath (text : List Statement)
  | Integer (i : Int)
  | Float (lit : String)
  | RawLatex (s : String)
  | MathText (state : MathState) (text : List Statement)
  | LatexFunction (name : String) (args : List (ArgNeed × List Statement))
  | Environment (name : String) (args : List (ArgNeed × List Statement))
      (text : List Statement)
  | BeginPhantomEnvironment (name : String)
      (args : List (ArgNeed × List Statement)) (addNewline : Bool)
  | EndPhantomEnvironment (name : String)
  | FunctionDefine (kind : FunctionDefKind) (name : String) (args : String)
      (trim : TrimWhitespace) (body : List Statement)
  | EnvironmentDefine (isRedefine : Bool) (name : String) (argsNum : Nat)
      (optionalArg : Option (List Statement)) (trim : TrimWhitespace)
      (beginPart : List Statement) (endPart : List Statement)

/-- The AST: an ordered statement sequence (`Latex`). -/
abbrev Latex := List Statement

/-- Parse error kinds (`VestiParseErrKind`). -/
inductive VestiParseErrKind where
  | EOFErr
  | ParseIntErr
  | ParseFloatErr
  | NameMissErr (ty : TokenType)
  | BracketMismatchErr (expected : TokenType)
  | BracketNumberMatchedErr
  | IsNotOpenedErr (opened : List TokenType) (close : TokenType)
  | IsNotClosedErr (opened : List TokenType) (close : TokenType)
  | TypeMismatch (expected : List TokenType) (got : TokenType)
  | IllegalUseErr (got : TokenType)
  | InvalidTokToConvert (got : TokenType)
  | IllegalCharacterFoundErr
  | DeprecatedUseErr
  deriving DecidableEq

/-- A parse error: kind plus source span (the `VestiErr::ParseErr`
variant; the other `VestiErr` variants are I/O errors outside the
core). -/
structure VestiParseErr where
  err_kind : VestiParseErrKind
  location : Span
  deriving DecidableEq

/-- Parser state: the remaining token stream plus the parse-state flags
(`DocState`), together with the tokenizer-owned `math_started` bit the
parser toggles. -/
structure PState where
  tokens : List Token
  docStart : Bool := false
  preventEndDoc : Bool := false
  parsingDefine : Bool := false
  mathStarted : Bool := false
  deriving DecidableEq

/-- Parse outcome: success with a value and the successor state, a parse
error, or fuel exhaustion (`noFuel` is an artifact of the fuel-indexed
embedding, never a source behavior). -/
inductive PRes (α : Type) where
  | ok (val : α) (st : PState)
  | err (e : VestiParseErr)
  | noFuel

/-- Sequencing of parse outcomes. -/
def PRes.bind {α β : Type} : PRes α → (α → PState → PRes β) → PRes β
  | .ok a s, g => g a s
  | .err e, _ => .err e
  | .noFuel, _ => .noFuel

def defaultToken : Token := {}

/-- One-token lookahead; an exhausted stream peeks as an EOF token. -/
def peekTok (st : PState) : Token := st.tokens.headD defaultToken

def peekType (st : PState) : TokenType := (peekTok st).toktype

def peekSpan (st : PState) : Span := (peekTok st).span

def isEof (st : PState) : Bool := peekType st = .Eof

/-- Consume the lookahead token (`next_tok`'s stream effect). -/
def advance (st : PState) : PState := { st with tokens := st.tokens.tail }

def nextTok (st : PState) : Token × PState := (peekTok st, advance st)

/-- `Parser::is_premiere`. -/
def isPremiere (st : PState) : Bool := !st.docStart && !st.parsingDefine

/-- `Parser::is_math_mode`. -/
def isMathMode (st : PState) : Bool := st.mathStarted || st.parsingDefine

/-- `Parser::eat_whitespaces::<NEWLINE_HANDLE>` on the token stream. -/
def eatWsList (newlineHandle : Bool) : List Token → List Token
  | [] => []
  | t :: rest =>
    if t.toktype = .Space ∨ t.toktype = .Tab ∨
        (newlineHandle ∧ t.toktype = .Newline) then
      eatWsList newlineHandle rest
    else t :: rest

def eatWs (newlineHandle : Bool) (st : PState) : PState :=
  { st with tokens := eatWsList newlineHandle st.tokens }

/-- Modelled from the spec: the `expect_peek!` macro (the parser's
`macros` module is not under `src/`): it consumes the lookahead when it
has the expected type and otherwise fails with a type-mismatch error at
the supplied span. -/
def expectPeek (expected : TokenType) (sp : Span) (st : PState) : PRes Unit :=
  if peekType st = expected then .ok () (advance st)
  else .err ⟨.TypeMismatch [expected] (peekType st), sp⟩

/-- Modelled from the spec: the `take_name!` macro (the parser's
`macros` module is not under `src/`): it reads one text token as a name;
the spec's error taxonomy supplies the missing-name error for anything
else and end-of-file at end of input. -/
def takeNameTok (st : PState) : PRes String :=
  match peekType st with
  | .Text => .ok (peekTok st).literal (advance st)
  | .Eof => .err ⟨.EOFErr, peekSpan st⟩
  | t => .err ⟨.NameMissErr t, peekSpan st⟩

/-- The star-consuming loops (`while peek == Star { name.push('*') }`). -/
def consumeStars : List Token → String → String × List Token
  | t :: rest, name =>
    if t.toktype = .Star then consumeStars rest (name ++ "*")
    else (name, t :: rest)
  | [], name => (name, [])

/-- `TokenType::get_definition_start_list()` (token module not under
`src/`; this exact list is also spelled out in
`parse_function_definebody`'s not-closed error in `src/parser/mod.rs`). -/
def defStartList : List TokenType :=
  [.FunctionDef, .LongFunctionDef, .OuterFunctionDef, .LongOuterFunctionDef,
   .EFunctionDef, .LongEFunctionDef, .OuterEFunctionDef, .LongOuterEFunctionDef,
   .GFunctionDef, .LongGFunctionDef, .OuterGFunctionDef, .LongOuterGFunctionDef,
   .XFunctionDef, .LongXFunctionDef, .OuterXFunctionDef, .LongOuterXFunctionDef]

/-- Modelled from the spec: the `TryInto<FunctionDefKind>` conversion of
the token module (not under `src/`): each of the 16 definition-start
keywords carries its long/outer modifiers and E(xpand) / G(lobal) /
X(= expand and global) definer kind. -/
def tokTypeToFDK : TokenType → Option FunctionDefKind
  | .FunctionDef => some {}
  | .LongFunctionDef => some { long := true }
  | .OuterFunctionDef => some { outer := true }
  | .LongOuterFunctionDef => some { long := true, outer := true }
  | .EFunctionDef => some { expand := true }
  | .LongEFunctionDef => some { long := true, expand := true }
  | .OuterEFunctionDef => some { outer := true, expand := true }
  | .LongOuterEFunctionDef => some { long := true, outer := true, expand := true }
  | .GFunctionDef => some { global := true }
  | .LongGFunctionDef => some { long := true, global := true }
  | .OuterGFunctionDef => some { outer := true, global := true }
  | .LongOuterGFunctionDef => some { long := true, outer := true, global := true }
  | .XFunctionDef => some { expand := true, global := true }
  | .LongXFunctionDef => some { long := true, expand := true, global := true }
  | .OuterXFunctionDef => some { outer := true, expand := true, global := true }
  | .LongOuterXFunctionDef =>
      some { long := true, outer := true, expand := true, global := true }
  | _ => none

/-- Used by `parse_function_definebody` to count nested definitions. -/
def isDefStart (t : TokenType) : Bool := (tokTypeToFDK t).isSome

/-- Modelled from the spec: `TokenType::is_keyword` (token module not
under `src/`); the spec's keyword set covers the document-level keywords,
the environment keywords, the 16 definition starts and the definition
delimiters. -/
def isKeyword (t : TokenType) : Bool :=
  t ∈ ([.Docclass, .Import, .StartDoc, .NonStopMode, .DocumentStartMode,
        .Useenv, .Begenv, .Endenv, .EndDefinition, .Defenv, .Redefenv,
        .EndsWith] : List TokenType) || isDefStart t

/-- `ENV_MATH_IDENT`: environment names that toggle math mode. -/
def envMathIdent : List String :=
  ["equation", "align", "array", "eqnarray", "gather", "multline", "luacode"]

/-! ## Rust string trimming

`trim_start` / `trim_end` / `trim` from Rust's standard library, on the
whitespace characters that can occur in the embedded strings (the ASCII
subset of Unicode `White_Space`). -/

def rustIsWhitespace (c : Char) : Bool :=
  c = ' ' || c = '\t' || c = '\n' || c = '\r'

def rustTrimStart (s : String) : String := ⟨s.data.dropWhile rustIsWhitespace⟩

def rustTrimEnd (s : String) : String :=
  ⟨(s.data.reverse.dropWhile rustIsWhitespace).reverse⟩

def rustTrim (s : String) : String := rustTrimStart (rustTrimEnd s)

/-! ## Code generator (`src/codegen.rs`)

String-building `for` loops over child statement lists are modelled as
structural recursion producing the same concatenation; renderers whose
accumulator starts non-empty (`latex_function_to_string` and the
environment renderers) keep the accumulator explicit
(`argListAppend`). -/

/-- The four-way trim selection of `function_def_to_string`
(`match (trim.start, trim.end)`). -/
def fnDefSelect (s e : Bool) (tmp : String) : String :=
  match s, e with
  | false, false => tmp
  | false, true => rustTrimEnd tmp
  | true, false => rustTrimStart tmp
  | true, true => rustTrim tmp

/-- `function_def_to_string` with the body already concatenated to
`tmp`. -/
def functionDefCore (kind : FunctionDefKind) (name args : String)
    (trim : TrimWhitespace) (tmp : String) : String :=
  (if kind.hasProperty .LONG then "\\long" else "")
  ++ (if kind.hasProperty .OUTER then "\\outer" else "")
  ++ (if kind.hasProperty (.or .EXPAND .GLOBAL) then "\\xdef"
      else if kind.hasProperty .GLOBAL then "\\gdef"
      else if kind.hasProperty .EXPAND then "\\edef"
      else "\\def")
  ++ "\\" ++ name ++ args ++ "\x7b"
  ++ (if trim.start then "%\n" else "")
  ++ fnDefSelect trim.start trim.tEnd tmp
  ++ "%\n\x7d\n"

/-- First trim selection of `environment_def_to_string`
(`match (trim.start, trim.mid)`); `none` is the `unreachable!` fatal
branch. -/
def envTrimBegin (s : Bool) (m : Option Bool) (tmp : String) : Option String :=
  match s, m with
  | false, some false => some tmp
  | true, some false => some (rustTrimStart tmp)
  | false, some true => some (rustTrimEnd tmp)
  | true, some true => some (rustTrim tmp)
  | _, none => none

/-- Second trim selection of `environment_def_to_string`
(`match (trim.mid, trim.end)`); `none` is the `unreachable!` fatal
branch. -/
def envTrimEnd (m : Option Bool) (e : Bool) (tmp : String) : Option String :=
  match m, e with
  | some false, false => some tmp
  | some true, false => some (rustTrimStart tmp)
  | some false, true => some (rustTrimEnd tmp)
  | some true, true => some (rustTrim tmp)
  | none, _ => none

/-- Stand-in text for the Rust `unreachable!` panic in
`environment_def_to_string` (the process aborts there; the embedding
keeps the renderer total and proves the branch unreachable for parsed
ASTs). -/
def vestiBugMsg : String := "VESTI BUG: codegen::environment_def_to_string"

/-- `environment_def_to_string` with both bodies and the optional
argument already rendered. -/
def envDefCore (isRedefine : Bool) (name : String) (argsNum : Nat)
    (optRendered : Option String) (trim : TrimWhitespace)
    (tmpBegin tmpEnd : String) : String :=
  (if isRedefine then "\\renewenvironment\x7b" ++ name ++ "\x7d"
   else "\\newenvironment\x7b" ++ name ++ "\x7d")
  ++ (if argsNum > 0 then
        "[" ++ toString argsNum ++ "]"
        ++ (match optRendered with
            | some inner => "[" ++ inner ++ "]\x7b"
            | none => "\x7b")
      else "\x7b")
  ++ (envTrimBegin trim.start trim.mid tmpBegin).getD vestiBugMsg
  ++ "\x7d\x7b"
  ++ (envTrimEnd trim.mid trim.tEnd tmpEnd).getD vestiBugMsg
  ++ "\x7d\n"

mutual

/-- `Statement::to_string` of `src/codegen.rs`. -/
def stmtToString : Statement → String
  | .NopStmt => ""
  | .NonStopMode => "\\nonstopmode\n"
  | .ImportExpl3Pkg => "\\usepackage\x7bexpl3, xparse\x7d\n"
  | .MakeAtLetter => "\\makeatletter\n"
  | .MakeAtOther => "\\makeatother\n"
  | .Latex3On => "\\ExplSyntaxOn\n"
  | .Latex3Off => "\\ExplSyntaxOff\n"
  | .DocumentClass name options => docclassToString name options
  | .Usepackage name options => usepackageToString name options
  | .MultiUsepackages pkgs => multiUsepkgString pkgs
  | .ImportVesti filename => "\\input\x7b" ++ filename ++ "\x7d"
  | .ImportFile filename => filename
  | .DocumentStart => "\\begin\x7bdocument\x7d\n"
  | .DocumentEnd => "\n\\end\x7bdocument\x7d\n"
  | .MainText s => s
  | .BracedStmt inner => "\x7b" ++ latexToString inner ++ "\x7d"
  | .MathDelimiter d kind =>
      (match kind with
       | .Default => d
       | .LeftBig => "\\left" ++ d
       | .RightBig => "\\right" ++ d)
  | .Fraction num den =>
      "\\frac\x7b" ++ latexToString num ++ "\x7d\x7b"
        ++ latexToString den ++ "\x7d"
  | .PlainTextInMath text => "\\text\x7b" ++ latexToString text ++ "\x7d"
  | .Integer i => toString i
  | .Float lit => lit
  | .RawLatex s => s
  | .MathText state text =>
      (match state with
       | .Text => "$" ++ latexToString text ++ "$"
       | .Inline => "\\[" ++ latexToString text ++ "\\]")
  | .LatexFunction name args => argListAppend name args
  | .Environment name args text =>
      argListAppend ("\\begin\x7b" ++ name ++ "\x7d") args
        ++ latexToString text ++ "\\end\x7b" ++ name ++ "\x7d\n"
  | .BeginPhantomEnvironment name args addNewline =>
      argListAppend
        ("\\begin\x7b" ++ name ++ "\x7d" ++ (if addNewline then "\n" else ""))
        args
  | .EndPhantomEnvironment name => "\\end\x7b" ++ name ++ "\x7d"
  | .FunctionDefine kind name args trim body =>
      functionDefCore kind name args trim (latexToString body)
  | .EnvironmentDefine isRedefine name argsNum optionalArg trim
      beginPart endPart =>
      envDefCore isRedefine name argsNum
        (match optionalArg with
         | some inner => some (latexToString inner)
         | none => none)
        trim (latexToString beginPart) (latexToString endPart)

/-- `latex_to_string`: concatenation of the statements' renderings. -/
def latexToString : List Statement → String
  | [] => ""
  | s :: rest => stmtToString s ++ latexToString rest

/-- `docclass_to_string`. -/
def docclassToString : String → Option (List (List Statement)) → String
  | name, some opts =>
      "\\documentclass[" ++ (latexListCommaString opts).dropRight 1
        ++ "]\x7b" ++ name ++ "\x7d\n"
  | name, none => "\\documentclass\x7b" ++ name ++ "\x7d\n"

/-- `usepackage_to_string`. -/
def usepackageToString : String → Option (List (List Statement)) → String
  | name, some opts =>
      "\\usepackage[" ++ (latexListCommaString opts).dropRight 1
        ++ "]\x7b" ++ name ++ "\x7d\n"
  | name, none => "\\usepackage\x7b" ++ name ++ "\x7d\n"

/-- Option-list rendering of `docclass_to_string`/`usepackage_to_string`:
each option rendered and comma-terminated (the caller pops the final
comma). -/
def latexListCommaString : List (List Statement) → String
  | [] => ""
  | o :: rest => latexToString o ++ "," ++ latexListCommaString rest

/-- `multiusepacakge_to_string`: only `Usepackage` entries contribute. -/
def multiUsepkgString : List Statement → String
  | [] => ""
  | .Usepackage name options :: rest =>
      usepackageToString name options ++ multiUsepkgString rest
  | _ :: rest => multiUsepkgString rest

/-- The argument-rendering loop shared by `latex_function_to_string`,
`begin_phantom_environment_to_string` and `environment_to_string`:
append each argument to the accumulated output in stored order. -/
def argListAppend : String → List (ArgNeed × List Statement) → String
  | acc, [] => acc
  | acc, (need, body) :: rest =>
      argListAppend
        (acc ++ (match need with
                 | .MainArg => "\x7b" ++ latexToString body ++ "\x7d"
                 | .Optional => "[" ++ latexToString body ++ "]"
                 | .StarArg => "*"))
        rest

end

/-- `latex_function_to_string`. -/
def latexFunctionToString (name : String)
    (args : List (ArgNeed × List Statement)) : String :=
  argListAppend name args

/-- `function_def_to_string`. -/
def functionDefToString (kind : FunctionDefKind) (name args : String)
    (trim : TrimWhitespace) (body : List Statement) : String :=
  functionDefCore kind name args trim (latexToString body)

/-- `environment_def_to_string`. -/
def environmentDefToString (isRedefine : Bool) (name : String) (argsNum : Nat)
    (optionalArg : Option (List Statement)) (trim : TrimWhitespace)
    (beginPart endPart : List Statement) : String :=
  envDefCore isRedefine name argsNum
    (match optionalArg with
     | some inner => some (latexToString inner)
     | none => none)
    trim (latexToString beginPart) (latexToString endPart)

/-! ## Non-recursive parser productions (`src/parser/mod.rs`) -/

/-- `Parser::parse_integer`; Rust parses the literal into a machine
integer, modelled as `String.toInt?` (no claim involves overflow). -/
def parseInteger (st : PState) : PRes Statement :=
  match (peekTok st).literal.toInt? with
  | some i => .ok (.Integer i) (advance st)
  | none => .err ⟨.ParseIntErr, (peekTok st).span⟩

/-- Shape check standing in for Rust's `f64` parse of a float literal
(floating point itself is not modelled; no claim involves float
values). -/
def isFloatLit (s : String) : Bool :=
  !s.isEmpty && s.data.all (fun c => c.isDigit || c == '.' || c == '-')

/-- `Parser::parse_float`; the accepted literal is kept as text. -/
def parseFloat (st : PState) : PRes Statement :=
  if isFloatLit (peekTok st).literal then
    .ok (.Float (peekTok st).literal) (advance st)
  else .err ⟨.ParseFloatErr, (peekTok st).span⟩

/-- `Parser::parse_raw_latex`. -/
def parseRawLatex (st : PState) : PRes Statement :=
  .ok (.RawLatex (peekTok st).literal) (advance st)

/-- `Parser::parse_main_stmt`. -/
def parseMainStmt (st : PState) : PRes Statement :=
  if isEof st then .err ⟨.EOFErr, peekSpan st⟩
  else .ok (.MainText (peekTok st).literal) (advance st)

/-- `Parser::parse_end_phantom_environment`. -/
def parseEndPhantomEnvironment (st : PState) : PRes Statement :=
  let endenvLoc := peekSpan st
  PRes.bind (expectPeek .Endenv (peekSpan st) st) fun _ st1 =>
  let st2 := eatWs false st1
  match peekType st2 with
  | .Text =>
      let (tok, st3) := nextTok st2
      let (name, ts) := consumeStars st3.tokens tok.literal
      let st4 := eatWs false { st3 with tokens := ts }
      .ok (.EndPhantomEnvironment name) st4
  | .Eof => .err ⟨.EOFErr, endenvLoc⟩
  | _ => .err ⟨.NameMissErr .Endenv, endenvLoc⟩

/-- Name accumulation loop of `parse_function_definition` /
`parse_environment_definition` (text and argument-splitter tokens until
whitespace or the construct's opening bracket `extraBreak`). -/
def defNameList (begTok : TokenType) (loc : Span) (extraBreak : TokenType) :
    List Token → String → Except VestiParseErr (String × List Token)
  | t :: rest, acc =>
    match t.toktype with
    | .Text => defNameList begTok loc extraBreak rest (acc ++ t.literal)
    | .ArgSpliter => defNameList begTok loc extraBreak rest (acc ++ t.literal)
    | .Space => .ok (acc, t :: rest)
    | .Tab => .ok (acc, t :: rest)
    | .Newline => .ok (acc, t :: rest)
    | tt =>
      if tt = extraBreak then .ok (acc, t :: rest)
      else if tt = .Eof then .error ⟨.EOFErr, loc⟩
      else .error ⟨.NameMissErr begTok, loc⟩
  | [], _ => .error ⟨.EOFErr, loc⟩

/-- Verbatim parameter-text loop of
`parse_function_definition_argument`: paren depth is tracked; a space is
inserted before a leading text token and before any keyword token; the
loop stops at end of input or when the depth-closing right paren is the
lookahead (left unconsumed for the caller's `expect_peek`). -/
def fnDefArgLoop (openLoc : Span) :
    List Token → Int → Bool → String → String × List Token
  | [], _, _, out => (out, [])
  | t :: rest, level, isFirst, out =>
    if t.toktype = .Eof ∨ level < 0 then (out, t :: rest)
    else if t.toktype = .Rparen ∧ level = 0 then (out, t :: rest)
    else
      let level' : Int :=
        if t.toktype = .Lparen then level + 1
        else if t.toktype = .Rparen then level - 1
        else level
      let out' :=
        (if (isFirst ∧ t.toktype = .Text) ∨ isKeyword t.toktype then out ++ " "
         else out) ++ t.literal
      fnDefArgLoop openLoc rest level' false out'

/-- `Parser::parse_function_definition_argument`. -/
def parseFnDefArgument (st : PState) : PRes String :=
  let openLoc := peekSpan st
  PRes.bind (expectPeek .Lparen openLoc st) fun _ st1 =>
  let (out, ts) := fnDefArgLoop openLoc st1.tokens 0 true ""
  let st2 := { st1 with tokens := ts }
  PRes.bind (expectPeek .Rparen openLoc st2) fun _ st3 => .ok out st3

/-- Rust `u8` parse of the environment-definition argument count. -/
def parseU8 (s : String) : Option Nat :=
  match s.toNat? with
  | some n => if n ≤ 255 then some n else none
  | none => none

/-! ## The recursive-descent parser (`src/parser/mod.rs`)

Every function takes a fuel parameter first and recurses at one less
fuel, so the mutual block is structurally recursive; `while` loops of
the source become the correspondingly named loop functions. -/

mutual

/-- `Parser::parse_statement`.  Rust match arms whose guard fails fall
through to the catch-all main-text production; that fall-through is
spelled out in each guarded arm here. -/
def parseStatement : Nat → PState → PRes Statement
  | 0, _ => .noFuel
  | fuel + 1, st =>
    match peekType st with
    | .Docclass => if isPremiere st then parseDocclass fuel st else parseMainStmt st
    | .Import => if isPremiere st then parseUsepackage fuel st else parseMainStmt st
    | .StartDoc =>
        if isPremiere st then
          .ok .DocumentStart (eatWs true (advance { st with docStart := true }))
        else parseMainStmt st
    | .NonStopMode => .ok .NonStopMode (eatWs true (advance st))
    | .Useenv => parseEnvironment fuel true st
    | .Begenv => parseEnvironment fuel false st
    | .Endenv => parseEndPhantomEnvironment st
    | .MathTextStart => parseTextInMath fuel st
    | .MathTextEnd =>
        .err ⟨.IsNotOpenedErr [.MathTextStart] .MathTextEnd, peekSpan st⟩
    | .DocumentStartMode =>
        let st1 := { st with preventEndDoc := true, docStart := true }
        let (tok, st2) := nextTok st1
        PRes.bind (expectPeek .Newline tok.span st2) fun _ st3 =>
          parseStatement fuel st3
    | .FunctionDef => parseFunctionDefinition fuel st
    | .LongFunctionDef => parseFunctionDefinition fuel st
    | .OuterFunctionDef => parseFunctionDefinition fuel st
    | .LongOuterFunctionDef => parseFunctionDefinition fuel st
    | .EFunctionDef => parseFunctionDefinition fuel st
    | .LongEFunctionDef => parseFunctionDefinition fuel st
    | .OuterEFunctionDef => parseFunctionDefinition fuel st
    | .LongOuterEFunctionDef => parseFunctionDefinition fuel st
    | .GFunctionDef => parseFunctionDefinition fuel st
    | .LongGFunctionDef => parseFunctionDefinition fuel st
    | .OuterGFunctionDef => parseFunctionDefinition fuel st
    | .LongOuterGFunctionDef => parseFunctionDefinition fuel st
    | .XFunctionDef => parseFunctionDefinition fuel st
    | .LongXFunctionDef => parseFunctionDefinition fuel st
    | .OuterXFunctionDef => parseFunctionDefinition fuel st
    | .LongOuterXFunctionDef => parseFunctionDefinition fuel st
    | .EndDefinition =>
        .err ⟨.IsNotOpenedErr defStartList .EndDefinition, peekSpan st⟩
    | .Defenv => parseEnvironmentDefinition fuel st
    | .Redefenv => parseEnvironmentDefinition fuel st
    | .EndsWith =>
        .err ⟨.IsNotOpenedErr [.Defenv, .Redefenv] .EndsWith, peekSpan st⟩
    | .LatexFunction => parseLatexFunction fuel st
    | .RawLatex => parseRawLatex st
    | .Integer => parseInteger st
    | .Float => parseFloat st
    | .TextMathStart => parseMathStmt fuel st
    | .InlineMathStart => parseMathStmt fuel st
    | .Superscript =>
        if ¬ isMathMode st then
          .err ⟨.IllegalUseErr .Superscript, peekSpan st⟩
        else parseMainStmt st
    | .Subscript =>
        if ¬ isMathMode st then
          .err ⟨.IllegalUseErr .Subscript, peekSpan st⟩
        else parseMainStmt st
    | .Lbrace => parseBraceStmt fuel st
    | .TextMathEnd => .err ⟨.InvalidTokToConvert .TextMathEnd, peekSpan st⟩
    | .InlineMathEnd => .err ⟨.InvalidTokToConvert .InlineMathEnd, peekSpan st⟩
    | .Deprecated => .err ⟨.DeprecatedUseErr, peekSpan st⟩
    | .Illegal => .err ⟨.IllegalCharacterFoundErr, peekSpan st⟩
    | _ => parseMainStmt st

termination_by structural fuel _ => fuel
/-- `Parser::parse_docclass`. -/
def parseDocclass : Nat → PState → PRes Statement
  | 0, _ => .noFuel
  | fuel + 1, st =>
    PRes.bind (expectPeek .Docclass (peekSpan st) st) fun _ st1 =>
    let st2 := eatWs false st1
    PRes.bind (takeNameTok st2) fun name st3 =>
    PRes.bind (parseCommaArgs fuel st3) fun options st4 =>
    let st5 := if peekType st4 = .Newline then advance st4 else st4
    .ok (.DocumentClass name options) st5

termination_by structural fuel _ => fuel
/-- `Parser::parse_usepackage`. -/
def parseUsepackage : Nat → PState → PRes Statement
  | 0, _ => .noFuel
  | fuel + 1, st =>
    PRes.bind (expectPeek .Import (peekSpan st) st) fun _ st1 =>
    let st2 := eatWs false st1
    if peekType st2 = .Lbrace then parseMultiUsepackages fuel st2
    else
      PRes.bind (takeNameTok st2) fun name st3 =>
      PRes.bind (parseCommaArgs fuel st3) fun options st4 =>
      let st5 := if peekType st4 = .Newline then advance st4 else st4
      .ok (.Usepackage name options) st5

termination_by structural fuel _ => fuel
/-- `Parser::parse_multiple_usepackages`. -/
def parseMultiUsepackages : Nat → PState → PRes Statement
  | 0, _ => .noFuel
  | fuel + 1, st =>
    PRes.bind (expectPeek .Lbrace (peekSpan st) st) fun _ st1 =>
    let st2 := eatWs true st1
    PRes.bind (multiPkgLoop fuel st2) fun pkgs st3 =>
    PRes.bind (expectPeek .Rbrace (peekSpan st3) st3) fun _ st4 =>
    let st5 := eatWs false st4
    let st6 := if peekType st5 = .Newline then advance st5 else st5
    .ok (.MultiUsepackages pkgs) st6

termination_by structural fuel _ => fuel
/-- Package-entry loop of `parse_multiple_usepackages`. -/
def multiPkgLoop : Nat → PState → PRes (List Statement)
  | 0, _ => .noFuel
  | fuel + 1, st =>
    if peekType st = .Rbrace then .ok [] st
    else
      PRes.bind (takeNameTok st) fun name st1 =>
      PRes.bind (parseCommaArgs fuel st1) fun options st2 =>
      let st3 := eatWs true st2
      match peekType st3 with
      | .Comma =>
          let st4 := eatWs true (advance st3)
          if peekType st4 = .Rbrace then .ok [.Usepackage name options] st4
          else
            PRes.bind (multiPkgLoop fuel st4) fun rest st5 =>
              .ok (.Usepackage name options :: rest) st5
      | .Rbrace => .ok [.Usepackage name options] st3
      | .Eof => .err ⟨.EOFErr, peekSpan st3⟩
      | t => .err ⟨.TypeMismatch [.Comma, .Rbrace] t, peekSpan st3⟩

termination_by structural fuel _ => fuel
/-- `Parser::parse_environment::<IS_PHANTOM>` (the second argument is
the `IS_PHANTOM` const generic; `true` for `useenv`, `false` for
`begenv`).  The dead inner `IS_PHANTOM` conditional of the source's
EOF-at-name branch is kept verbatim. -/
def parseEnvironment : Nat → Bool → PState → PRes Statement
  | 0, _, _ => .noFuel
  | fuel + 1, isPhantom, st =>
    let begenvLoc := peekSpan st
    PRes.bind
      (if isPhantom then
         PRes.bind (expectPeek .Useenv (peekSpan st) st) fun _ s => .ok false s
       else
         PRes.bind (expectPeek .Begenv (peekSpan st) st) fun _ s =>
           if peekType s = .Star then .ok true (advance s) else .ok false s)
      fun addNewline st1 =>
    let st2 := eatWs false st1
    match peekType st2 with
    | .Text =>
        let (tok, st3) := nextTok st2
        let offMath : Bool := tok.literal ∈ envMathIdent
        let st4 := if offMath then { st3 with mathStarted := true } else st3
        let (name, ts) := consumeStars st4.tokens tok.literal
        let st5 := eatWs false { st4 with tokens := ts }
        PRes.bind (parseFunctionArgs fuel .Lparen .Rparen .Lsqbrace .Rsqbrace st5)
          fun args st6 =>
        PRes.bind
          (if isPhantom then
             let st7 := eatWs false st6
             PRes.bind (expectPeek .Lbrace (peekSpan st7) st7) fun _ st8 =>
             PRes.bind (envBodyLoop fuel begenvLoc st8) fun text st9 =>
             PRes.bind (expectPeek .Rbrace (peekSpan st9) st9) fun _ st10 =>
               .ok (some text) st10
           else .ok none st6)
          fun textOpt st11 =>
        let st12 := if offMath then { st11 with mathStarted := false } else st11
        let st13 := if peekType st12 = .Newline then advance st12 else st12
        .ok (if isPhantom then .Environment name args (textOpt.getD [])
             else .BeginPhantomEnvironment name args addNewline) st13
    | .Eof =>
        if isPhantom then .err ⟨.NameMissErr .Useenv, begenvLoc⟩
        else if isPhantom then .err ⟨.IsNotClosedErr [.Begenv] .Endenv, begenvLoc⟩
        else .err ⟨.EOFErr, begenvLoc⟩
    | _ => .err ⟨.NameMissErr .Begenv, begenvLoc⟩

termination_by structural fuel _ _ => fuel
/-- Inline-body loop of `parse_environment::<true>` (statements up to
the closing brace). -/
def envBodyLoop : Nat → Span → PState → PRes (List Statement)
  | 0, _, _ => .noFuel
  | fuel + 1, loc, st =>
    if peekType st = .Rbrace then .ok [] st
    else if isEof st then .err ⟨.IsNotClosedErr [.Lbrace] .Rbrace, loc⟩
    else
      PRes.bind (parseStatement fuel st) fun stmt st1 =>
      PRes.bind (envBodyLoop fuel loc st1) fun rest st2 =>
        .ok (stmt :: rest) st2

termination_by structural fuel _ _ => fuel
/-- `Parser::parse_math_stmt`. -/
def parseMathStmt : Nat → PState → PRes Statement
  | 0, _ => .noFuel
  | fuel + 1, st =>
    let startLoc := peekSpan st
    match peekType st with
    | .TextMathStart =>
        PRes.bind (expectPeek .TextMathStart (peekSpan st) st) fun _ st1 =>
        PRes.bind (mathBodyLoop fuel .TextMathEnd startLoc st1) fun text st2 =>
        PRes.bind (expectPeek .TextMathEnd (peekSpan st2) st2) fun _ st3 =>
          .ok (.MathText .Text text) st3
    | .InlineMathStart =>
        PRes.bind (expectPeek .InlineMathStart (peekSpan st) st) fun _ st1 =>
        PRes.bind (mathBodyLoop fuel .InlineMathEnd startLoc st1) fun text st2 =>
        PRes.bind (expectPeek .InlineMathEnd (peekSpan st2) st2) fun _ st3 =>
          .ok (.MathText .Inline text) st3
    | .Eof => .err ⟨.EOFErr, peekSpan st⟩
    | t =>
        .err ⟨.TypeMismatch [.TextMathStart, .InlineMathStart] t, peekSpan st⟩

termination_by structural fuel _ => fuel
/-- Body loop of `parse_math_stmt`: an inner end-of-file failure is
converted into the bracket-mismatch error at the opening delimiter;
both the text and the inline branch of the source name `TextMathEnd` as
the expected closer in that error. -/
def mathBodyLoop : Nat → TokenType → Span → PState → PRes (List Statement)
  | 0, _, _, _ => .noFuel
  | fuel + 1, endTok, startLoc, st =>
    if peekType st = endTok then .ok [] st
    else
      match parseStatement fuel st with
      | .ok stmt st1 =>
          PRes.bind (mathBodyLoop fuel endTok startLoc st1) fun rest st2 =>
            .ok (stmt :: rest) st2
      | .err e =>
          if e.err_kind = .EOFErr then
            .err ⟨.BracketMismatchErr .TextMathEnd, startLoc⟩
          else .err e
      | .noFuel => .noFuel

termination_by structural fuel _ _ _ => fuel
/-- `Parser::parse_text_in_math`. -/
def parseTextInMath : Nat → PState → PRes Statement
  | 0, _ => .noFuel
  | fuel + 1, st =>
    PRes.bind (expectPeek .MathTextStart (peekSpan st) st) fun _ st1 =>
    PRes.bind (textInMathLoop fuel st1) fun text st2 =>
    PRes.bind (expectPeek .MathTextEnd (peekSpan st2) st2) fun _ st3 =>
    if peekType st3 = .Space then
      let (tok, st4) := nextTok st3
      .ok (.PlainTextInMath (text ++ [.MainText tok.literal])) st4
    else .ok (.PlainTextInMath text) st3

termination_by structural fuel _ => fuel
/-- Body loop of `parse_text_in_math` (end-of-file inside yields the
bracket-mismatch error at the current lookahead's span). -/
def textInMathLoop : Nat → PState → PRes (List Statement)
  | 0, _ => .noFuel
  | fuel + 1, st =>
    if peekType st = .MathTextEnd then .ok [] st
    else if isEof st then
      .err ⟨.BracketMismatchErr .MathTextEnd, peekSpan st⟩
    else
      PRes.bind (parseStatement fuel st) fun stmt st1 =>
      PRes.bind (textInMathLoop fuel st1) fun rest st2 =>
        .ok (stmt :: rest) st2

termination_by structural fuel _ => fuel
/-- `Parser::parse_brace_stmt`. -/
def parseBraceStmt : Nat → PState → PRes Statement
  | 0, _ => .noFuel
  | fuel + 1, st =>
    let beginLoc := peekSpan st
    PRes.bind (expectPeek .Lbrace beginLoc st) fun _ st1 =>
    braceLoop fuel beginLoc false [] [] st1

termination_by structural fuel _ => fuel
/-- Loop of `parse_brace_stmt`: accumulates the numerator until a
fraction-divider token appears, then the denominator. -/
def braceLoop :
    Nat → Span → Bool → List Statement → List Statement → PState →
    PRes Statement
  | 0, _, _, _, _, _ => .noFuel
  | fuel + 1, loc, isFraction, num, den, st =>
    if peekType st = .Eof then .err ⟨.EOFErr, loc⟩
    else if peekType st = .Rbrace then
      .ok (if isFraction then .Fraction num den else .BracedStmt num)
        (advance st)
    else if peekType st = .FracDefiner then
      PRes.bind (parseStatement fuel (advance st)) fun stmt st2 =>
        braceLoop fuel loc true num (den ++ [stmt]) st2
    else
      PRes.bind (parseStatement fuel st) fun stmt st2 =>
        if isFraction then
          braceLoop fuel loc isFraction num (den ++ [stmt]) st2
        else braceLoop fuel loc isFraction (num ++ [stmt]) den st2

termination_by structural fuel _ _ _ _ _ => fuel
/-- `Parser::parse_function_definition`. -/
def parseFunctionDefinition : Nat → PState → PRes Statement
  | 0, _ => .noFuel
  | fuel + 1, st =>
    let loc := peekSpan st
    if peekType st = .Eof then .err ⟨.EOFErr, loc⟩
    else
      match tokTypeToFDK (peekType st) with
      | none => .err ⟨.TypeMismatch defStartList (peekType st), loc⟩
      | some kind =>
        let begTok := peekType st
        PRes.bind (expectPeek begTok (peekSpan st) st) fun _ st1 =>
        let p := if peekType st1 = .Star then (false, advance st1)
                 else (true, st1)
        let st3 := eatWs false p.2
        if isEof st3 then .err ⟨.IsNotClosedErr [begTok] .EndDefinition, loc⟩
        else
          match defNameList begTok loc .Lparen st3.tokens "" with
          | .error e => .err e
          | .ok (name, ts) =>
            let st4 := eatWs false { st3 with tokens := ts }
            PRes.bind (parseFnDefArgument st4) fun args st5 =>
            PRes.bind (defBodyLoop fuel loc 0 st5) fun body st6 =>
            PRes.bind (expectPeek .EndDefinition (peekSpan st6) st6) fun _ st7 =>
            let q := if peekType st7 = .Star then (false, advance st7)
                     else (true, st7)
            let st9 := if peekType q.2 = .Newline then advance q.2 else q.2
            .ok (.FunctionDefine kind name args
                  { start := p.1, mid := none, tEnd := q.1 } body) st9

termination_by structural fuel _ => fuel
/-- `Parser::parse_function_definebody`: statements up to the matching
end-of-definition token; `level` is the source's `def_level` counter of
nested definition openers (its decrementing arm is unreachable because
the loop guard already stops at the end token). -/
def defBodyLoop : Nat → Span → Int → PState → PRes (List Statement)
  | 0, _, _, _ => .noFuel
  | fuel + 1, loc, level, st =>
    if peekType st = .EndDefinition ∨ level < 0 then .ok [] st
    else if peekType st = .Eof then
      .err ⟨.IsNotClosedErr defStartList .EndDefinition, loc⟩
    else
      let level' := if isDefStart (peekType st) then level + 1 else level
      PRes.bind (parseStatement fuel { st with parsingDefine := true })
        fun stmt st2 =>
      PRes.bind (defBodyLoop fuel loc level' { st2 with parsingDefine := false })
        fun rest st4 => .ok (stmt :: rest) st4

termination_by structural fuel _ _ _ => fuel
/-- `Parser::parse_environment_definition`. -/
def parseEnvironmentDefinition : Nat → PState → PRes Statement
  | 0, _ => .noFuel
  | fuel + 1, st =>
    let loc := peekSpan st
    PRes.bind
      (match peekType st with
       | .Eof => .err ⟨.EOFErr, loc⟩
       | .Defenv => .ok false st
       | .Redefenv => .ok true st
       | t => .err ⟨.TypeMismatch [.Defenv, .Redefenv] t, loc⟩)
      fun isRedefine st0 =>
    let begTok := if isRedefine then TokenType.Redefenv else TokenType.Defenv
    PRes.bind (expectPeek begTok (peekSpan st0) st0) fun _ st1 =>
    let p := if peekType st1 = .Star then (false, advance st1) else (true, st1)
    let st3 := eatWs false p.2
    if isEof st3 then .err ⟨.IsNotClosedErr [begTok] .EndsWith, loc⟩
    else
      match defNameList begTok loc .Lsqbrace st3.tokens "" with
      | .error e => .err e
      | .ok (name, ts) =>
        let st4 := eatWs false { st3 with tokens := ts }
        PRes.bind (envDefArgPart fuel loc st4) fun argPart st5 =>
        PRes.bind (envDefBeginLoop fuel loc st5) fun beginPart st6 =>
        let midLoc := peekSpan st6
        PRes.bind (expectPeek .EndsWith (peekSpan st6) st6) fun _ st7 =>
        let q := if peekType st7 = .Star then (false, advance st7)
                 else (true, st7)
        PRes.bind (envDefEndLoop fuel midLoc q.2) fun endPart st9 =>
        PRes.bind (expectPeek .EndDefinition (peekSpan st9) st9) fun _ st10 =>
        let r := if peekType st10 = .Star then (false, advance st10)
                 else (true, st10)
        let st12 := if peekType r.2 = .Newline then advance r.2 else r.2
        .ok (.EnvironmentDefine isRedefine name argPart.1 argPart.2
              { start := p.1, mid := some q.1, tEnd := r.1 }
              beginPart endPart) st12

termination_by structural fuel _ => fuel
/-- Optional `[argCount]` / `[argCount, default]` part of
`parse_environment_definition`. -/
def envDefArgPart : Nat → Span → PState → PRes (Nat × Option (List Statement))
  | 0, _, _ => .noFuel
  | fuel + 1, loc, st =>
    if peekType st = .Lsqbrace then
      PRes.bind (expectPeek .Lsqbrace (peekSpan st) st) fun _ st1 =>
      PRes.bind
        (match peekType st1 with
         | .Integer =>
             let (tok, st2) := nextTok st1
             (match parseU8 tok.literal with
              | some n => .ok n st2
              | none => .err ⟨.ParseIntErr, tok.span⟩)
         | .Eof => .err ⟨.EOFErr, loc⟩
         | t => .err ⟨.TypeMismatch [.Integer] t, peekSpan st1⟩)
        fun argnum st3 =>
      match peekType st3 with
      | .Comma =>
          PRes.bind (expectPeek .Comma (peekSpan st3) st3) fun _ st4 =>
          let st5 := if peekType st4 = .Space then advance st4 else st4
          PRes.bind (envDefOptLoop fuel loc st5) fun inner st6 =>
          PRes.bind (expectPeek .Rsqbrace (peekSpan st6) st6) fun _ st7 =>
            .ok (argnum, some inner) st7
      | .Rsqbrace =>
          PRes.bind (expectPeek .Rsqbrace (peekSpan st3) st3) fun _ st4 =>
            .ok (argnum, none) st4
      | .Eof => .err ⟨.EOFErr, loc⟩
      | t => .err ⟨.TypeMismatch [.Rsqbrace, .Comma] t, peekSpan st3⟩
    else .ok (0, none) st

termination_by structural fuel _ _ => fuel
/-- Default-optional-argument loop of `parse_environment_definition`
(statements up to the closing square bracket). -/
def envDefOptLoop : Nat → Span → PState → PRes (List Statement)
  | 0, _, _ => .noFuel
  | fuel + 1, loc, st =>
    if peekType st = .Rsqbrace then .ok [] st
    else if isEof st then .err ⟨.EOFErr, loc⟩
    else
      PRes.bind (parseStatement fuel st) fun stmt st1 =>
      PRes.bind (envDefOptLoop fuel loc st1) fun rest st2 =>
        .ok (stmt :: rest) st2

termination_by structural fuel _ _ => fuel
/-- Begin-body loop of `parse_environment_definition` (up to the
ends-with token; nested environment definitions recurse directly, other
statements are parsed with the definition flag set). -/
def envDefBeginLoop : Nat → Span → PState → PRes (List Statement)
  | 0, _, _ => .noFuel
  | fuel + 1, loc, st =>
    match peekType st with
    | .Defenv =>
        PRes.bind (parseEnvironmentDefinition fuel st) fun stmt st1 =>
        PRes.bind (envDefBeginLoop fuel loc st1) fun rest st2 =>
          .ok (stmt :: rest) st2
    | .Redefenv =>
        PRes.bind (parseEnvironmentDefinition fuel st) fun stmt st1 =>
        PRes.bind (envDefBeginLoop fuel loc st1) fun rest st2 =>
          .ok (stmt :: rest) st2
    | .EndsWith => .ok [] st
    | .EndDefinition =>
        .err ⟨.IsNotClosedErr [.Defenv, .Redefenv] .EndsWith, loc⟩
    | .Eof => .err ⟨.IsNotClosedErr [.Defenv, .Redefenv] .EndsWith, loc⟩
    | _ =>
        PRes.bind (parseStatement fuel { st with parsingDefine := true })
          fun stmt st2 =>
        PRes.bind (envDefBeginLoop fuel loc { st2 with parsingDefine := false })
          fun rest st4 => .ok (stmt :: rest) st4

termination_by structural fuel _ _ => fuel
/-- End-body loop of `parse_environment_definition` (up to the
end-of-definition token). -/
def envDefEndLoop : Nat → Span → PState → PRes (List Statement)
  | 0, _, _ => .noFuel
  | fuel + 1, loc, st =>
    match peekType st with
    | .Defenv =>
        PRes.bind (parseEnvironmentDefinition fuel st) fun stmt st1 =>
        PRes.bind (envDefEndLoop fuel loc st1) fun rest st2 =>
          .ok (stmt :: rest) st2
    | .Redefenv =>
        PRes.bind (parseEnvironmentDefinition fuel st) fun stmt st1 =>
        PRes.bind (envDefEndLoop fuel loc st1) fun rest st2 =>
          .ok (stmt :: rest) st2
    | .EndDefinition => .ok [] st
    | .EndsWith =>
        .err ⟨.IsNotClosedErr [.EndsWith] .EndDefinition, loc⟩
    | .Eof =>
        .err ⟨.IsNotClosedErr [.EndsWith] .EndDefinition, loc⟩
    | _ =>
        PRes.bind (parseStatement fuel { st with parsingDefine := true })
          fun stmt st2 =>
        PRes.bind (envDefEndLoop fuel loc { st2 with parsingDefine := false })
          fun rest st4 => .ok (stmt :: rest) st4

termination_by structural fuel _ _ => fuel
/-- `Parser::parse_latex_function`. -/
def parseLatexFunction : Nat → PState → PRes Statement
  | 0, _ => .noFuel
  | fuel + 1, st =>
    if isEof st then .err ⟨.EOFErr, peekSpan st⟩
    else
      let (tok, st1) := nextTok st
      PRes.bind (parseFunctionArgs fuel .Lbrace .Rbrace .OptionalBrace .Rsqbrace st1)
        fun args st2 => .ok (.LatexFunction tok.literal args) st2

termination_by structural fuel _ => fuel
/-- `Parser::parse_comma_args` (the parenthesized option list of
doc-class and package imports); `none` when no open paren follows. -/
def parseCommaArgs : Nat → PState → PRes (Option (List (List Statement)))
  | 0, _ => .noFuel
  | fuel + 1, st =>
    let st1 := eatWs false st
    if peekType st1 = .Lparen then
      let openLoc := peekSpan st1
      let st2 := eatWs true (advance st1)
      PRes.bind (commaArgsLoop fuel openLoc st2) fun optionsVec st3 =>
      PRes.bind (expectPeek .Rparen (peekSpan st3) st3) fun _ st4 =>
        .ok (some optionsVec) (eatWs false st4)
    else .ok none st1

termination_by structural fuel _ => fuel
/-- Outer option loop of `parse_comma_args` (one entry per comma). -/
def commaArgsLoop : Nat → Span → PState → PRes (List (List Statement))
  | 0, _, _ => .noFuel
  | fuel + 1, openLoc, st =>
    if peekType st = .Rparen then .ok [] st
    else if isEof st then .err ⟨.BracketNumberMatchedErr, openLoc⟩
    else
      let st1 := eatWs true st
      PRes.bind (commaArgsInner fuel openLoc st1) fun tmp st2 =>
      let st3 := eatWs true st2
      if peekType st3 = .Rparen then .ok [tmp] st3
      else
        PRes.bind (expectPeek .Comma (peekSpan st3) st3) fun _ st4 =>
        let st5 := eatWs true st4
        PRes.bind (commaArgsLoop fuel openLoc st5) fun rest st6 =>
          .ok (tmp :: rest) st6

termination_by structural fuel _ _ => fuel
/-- Inner statement loop of `parse_comma_args` (statements of a single
option, up to the next comma or the closing paren). -/
def commaArgsInner : Nat → Span → PState → PRes (List Statement)
  | 0, _, _ => .noFuel
  | fuel + 1, openLoc, st =>
    if peekType st = .Comma then .ok [] st
    else
      let st1 := eatWs true st
      if isEof st1 then .err ⟨.BracketNumberMatchedErr, openLoc⟩
      else if peekType st1 = .Rparen then .ok [] st1
      else
        PRes.bind (parseStatement fuel st1) fun stmt st2 =>
        PRes.bind (commaArgsInner fuel openLoc st2) fun rest st3 =>
          .ok (stmt :: rest) st3

termination_by structural fuel _ _ => fuel
/-- `Parser::parse_function_args`. -/
def parseFunctionArgs :
    Nat → TokenType → TokenType → TokenType → TokenType → PState →
    PRes (List (ArgNeed × List Statement))
  | 0, _, _, _, _, _ => .noFuel
  | fuel + 1, o, c, oo, oc, st =>
    if peekType st = o ∨ peekType st = oo ∨ peekType st = .Star then
      funcArgsLoop fuel o c oo oc st
    else .ok [] st

termination_by structural fuel _ _ _ _ _ => fuel
/-- Argument-group loop of `parse_function_args` (stops after a group
when the lookahead is end-of-file or a newline, or at the first
non-matching token). -/
def funcArgsLoop :
    Nat → TokenType → TokenType → TokenType → TokenType → PState →
    PRes (List (ArgNeed × List Statement))
  | 0, _, _, _, _, _ => .noFuel
  | fuel + 1, o, c, oo, oc, st =>
    if peekType st = o then
      PRes.bind (funcArgsCore fuel o c .MainArg st) fun entries st1 =>
      if peekType st1 = .Eof ∨ peekType st1 = .Newline then .ok entries st1
      else
        PRes.bind (funcArgsLoop fuel o c oo oc st1) fun rest st2 =>
          .ok (entries ++ rest) st2
    else if peekType st = oo then
      PRes.bind (funcArgsCore fuel oo oc .Optional st) fun entries st1 =>
      if peekType st1 = .Eof ∨ peekType st1 = .Newline then .ok entries st1
      else
        PRes.bind (funcArgsLoop fuel o c oo oc st1) fun rest st2 =>
          .ok (entries ++ rest) st2
    else if peekType st = .Star then
      let st1 := advance st
      if peekType st1 = .Eof ∨ peekType st1 = .Newline then
        .ok [(.StarArg, [])] st1
      else
        PRes.bind (funcArgsLoop fuel o c oo oc st1) fun rest st2 =>
          .ok ((.StarArg, []) :: rest) st2
    else .ok [] st

termination_by structural fuel _ _ _ _ _ => fuel
/-- `Parser::parse_function_args_core` (one bracketed group; the
argument splitter starts a new entry inside the same brackets). -/
def funcArgsCore :
    Nat → TokenType → TokenType → ArgNeed → PState →
    PRes (List (ArgNeed × List Statement))
  | 0, _, _, _, _ => .noFuel
  | fuel + 1, o, c, need, st =>
    let openLoc := peekSpan st
    PRes.bind (expectPeek o openLoc st) fun _ st1 =>
    PRes.bind (coreEntries fuel c need openLoc st1) fun entries st2 =>
    PRes.bind (expectPeek c (peekSpan st2) st2) fun _ st3 => .ok entries st3

termination_by structural fuel _ _ _ _ => fuel
/-- Entry loop of `parse_function_args_core`. -/
def coreEntries :
    Nat → TokenType → ArgNeed → Span → PState →
    PRes (List (ArgNeed × List Statement))
  | 0, _, _, _, _ => .noFuel
  | fuel + 1, c, need, openLoc, st =>
    PRes.bind (coreInner fuel c openLoc st) fun tmp st1 =>
    if peekType st1 = .ArgSpliter then
      let st2 := eatWs true (advance st1)
      PRes.bind (coreEntries fuel c need openLoc st2) fun rest st3 =>
        .ok ((need, tmp) :: rest) st3
    else .ok [(need, tmp)] st1

termination_by structural fuel _ _ _ _ => fuel
/-- Statement loop of one `parse_function_args_core` entry (up to the
closing bracket or the next argument splitter). -/
def coreInner : Nat → TokenType → Span → PState → PRes (List Statement)
  | 0, _, _, _ => .noFuel
  | fuel + 1, c, openLoc, st =>
    if peekType st = c ∨ peekType st = .ArgSpliter then .ok [] st
    else if isEof st then .err ⟨.BracketNumberMatchedErr, openLoc⟩
    else
      PRes.bind (parseStatement fuel st) fun stmt st1 =>
      PRes.bind (coreInner fuel c openLoc st1) fun rest st2 =>
        .ok (stmt :: rest) st2

termination_by structural fuel _ _ _ => fuel
/-- Statement loop of `parse_latex` (until end-of-file). -/
def parseLatexLoop : Nat → PState → PRes (List Statement)
  | 0, _ => .noFuel
  | fuel + 1, st =>
    if isEof st then .ok [] st
    else
      PRes.bind (parseStatement fuel st) fun stmt st1 =>
      PRes.bind (parseLatexLoop fuel st1) fun rest st2 =>
        .ok (stmt :: rest) st2

termination_by structural fuel _ => fuel
end

/-- `Parser::parse_latex`: all statements up to end-of-file, then a
synthesized document-end statement when the final state is not premiere
(the `prevent_end_doc` flag is not consulted here, exactly as in the
source). -/
def parseLatex (fuel : Nat) (st : PState) : PRes (List Statement) :=
  PRes.bind (parseLatexLoop fuel st) fun latex st1 =>
    .ok (if isPremiere st1 then latex else latex ++ [.DocumentEnd]) st1

/-- Initial parser state on a token stream (`Parser::new` starts with
cleared flags). -/
def initState (ts : List Token) : PState := { tokens := ts }

/-! ## The mid-trim invariant (claim about `environment_def_to_string`'s
fatal branches)

`stmtMidOk` holds when every `EnvironmentDefine` node anywhere in a
statement tree has its `mid` trim flag populated. -/

mutual

def stmtMidOk : Statement → Bool
  | .DocumentClass _ options => optsMidOk options
  | .Usepackage _ options => optsMidOk options
  | .MultiUsepackages pkgs => latexMidOk pkgs
  | .BracedStmt inner => latexMidOk inner
  | .Fraction num den => latexMidOk num && latexMidOk den
  | .PlainTextInMath text => latexMidOk text
  | .MathText _ text => latexMidOk text
  | .LatexFunction _ args => argsMidOk args
  | .Environment _ args text => argsMidOk args && latexMidOk text
  | .BeginPhantomEnvironment _ args _ => argsMidOk args
  | .FunctionDefine _ _ _ _ body => latexMidOk body
  | .EnvironmentDefine _ _ _ optionalArg trim beginPart endPart =>
      trim.mid.isSome && optLatexMidOk optionalArg
        && latexMidOk beginPart && latexMidOk endPart
  | _ => true

def latexMidOk : List Statement → Bool
  | [] => true
  | s :: rest => stmtMidOk s && latexMidOk rest

def argsMidOk : List (ArgNeed × List Statement) → Bool
  | [] => true
  | (_, body) :: rest => latexMidOk body && argsMidOk rest

def optLatexMidOk : Option (List Statement) → Bool
  | none => true
  | some l => latexMidOk l

def optsMidOk : Option (List (List Statement)) → Bool
  | none => true
  | some ls => listLatexMidOk ls

def listLatexMidOk : List (List Statement) → Bool
  | [] => true
  | l :: rest => latexMidOk l && listLatexMidOk rest

end

/-! ## Specification-side definitions

These follow the wording of the specification (not the source) and are
compared against the source-derived definitions in the refinement
theorems below. -/

/-- Specification wording of the definer choice: `\xdef` when both
expand and global, `\gdef` when global only, `\edef` when expand only,
`\def` otherwise. -/
def definerSpec (k : FunctionDefKind) : String :=
  if k.expand && k.global then "\\xdef"
  else if k.global then "\\gdef"
  else if k.expand then "\\edef"
  else "\\def"

/-- Specification wording of the emitted definition prefix: `\long`
exactly when the style has the long modifier, then `\outer` exactly when
it has the outer modifier, then the definer keyword. -/
def fdkHeadSpec (k : FunctionDefKind) : String :=
  (if k.long then "\\long" else "") ++ (if k.outer then "\\outer" else "")
    ++ definerSpec k

/-- Specification wording of the four-way trim lattice on `(start, end)`
flags: unchanged / trailing trimmed / leading trimmed / both trimmed. -/
def trimPolicySpec (s e : Bool) (t : String) : String :=
  match s, e with
  | false, false => t
  | false, true => rustTrimEnd t
  | true, false => rustTrimStart t
  | true, true => rustTrim t

/-- Specification wording of one rendered argument: a main argument in
braces, an optional argument in brackets, a bare star. -/
def argEntrySpec : ArgNeed × List Statement → String
  | (.MainArg, body) => "\x7b" ++ latexToString body ++ "\x7d"
  | (.Optional, body) => "[" ++ latexToString body ++ "]"
  | (.StarArg, _) => "*"

/-- Specification wording of an argument list's rendering: the entries
rendered in stored order. -/
def argsRenderSpec : List (ArgNeed × List Statement) → String
  | [] => ""
  | a :: rest => argEntrySpec a ++ argsRenderSpec rest

/-- Observation: whether a parse outcome is the generic end-of-file
error. -/
def isEofErrRes {α : Type} : PRes α → Bool
  | .err e => e.err_kind = .EOFErr
  | _ => false

/-- The bundle of mid-trim invariants, one per parser function at a
given fuel: every successfully parsed value has all its
`EnvironmentDefine` nodes' `mid` flags populated. -/
structure MidOkAll (fuel : Nat) : Prop where
  stmt : ∀ st v st', parseStatement fuel st = .ok v st' → stmtMidOk v = true
  docclass : ∀ st v st', parseDocclass fuel st = .ok v st' → stmtMidOk v = true
  usepkg : ∀ st v st', parseUsepackage fuel st = .ok v st' → stmtMidOk v = true
  multiUsepkg : ∀ st v st',
    parseMultiUsepackages fuel st = .ok v st' → stmtMidOk v = true
  multiLoop : ∀ st v st', multiPkgLoop fuel st = .ok v st' → latexMidOk v = true
  env : ∀ b st v st', parseEnvironment fuel b st = .ok v st' → stmtMidOk v = true
  envBody : ∀ loc st v st',
    envBodyLoop fuel loc st = .ok v st' → latexMidOk v = true
  math : ∀ st v st', parseMathStmt fuel st = .ok v st' → stmtMidOk v = true
  mathBody : ∀ et l st v st',
    mathBodyLoop fuel et l st = .ok v st' → latexMidOk v = true
  textInMath : ∀ st v st',
    parseTextInMath fuel st = .ok v st' → stmtMidOk v = true
  textInMathBody : ∀ st v st',
    textInMathLoop fuel st = .ok v st' → latexMidOk v = true
  brace : ∀ st v st', parseBraceStmt fuel st = .ok v st' → stmtMidOk v = true
  braceBody : ∀ loc b num den st v st', latexMidOk num = true →
    latexMidOk den = true → braceLoop fuel loc b num den st = .ok v st' →
    stmtMidOk v = true
  fnDef : ∀ st v st',
    parseFunctionDefinition fuel st = .ok v st' → stmtMidOk v = true
  defBody : ∀ loc lv st v st',
    defBodyLoop fuel loc lv st = .ok v st' → latexMidOk v = true
  envDef : ∀ st v st',
    parseEnvironmentDefinition fuel st = .ok v st' → stmtMidOk v = true
  envDefArg : ∀ loc st v st',
    envDefArgPart fuel loc st = .ok v st' → optLatexMidOk v.2 = true
  envDefOpt : ∀ loc st v st',
    envDefOptLoop fuel loc st = .ok v st' → latexMidOk v = true
  envDefBegin : ∀ loc st v st',
    envDefBeginLoop fuel loc st = .ok v st' → latexMidOk v = true
  envDefEnd : ∀ loc st v st',
    envDefEndLoop fuel loc st = .ok v st' → latexMidOk v = true
  latexFn : ∀ st v st',
    parseLatexFunction fuel st = .ok v st' → stmtMidOk v = true
  commaArgs : ∀ st v st',
    parseCommaArgs fuel st = .ok v st' → optsMidOk v = true
  commaLoop : ∀ loc st v st',
    commaArgsLoop fuel loc st = .ok v st' → listLatexMidOk v = true
  commaInner : ∀ loc st v st',
    commaArgsInner fuel loc st = .ok v st' → latexMidOk v = true
  fnArgs : ∀ o c oo oc st v st',
    parseFunctionArgs fuel o c oo oc st = .ok v st' → argsMidOk v = true
  fnArgsLoop : ∀ o c oo oc st v st',
    funcArgsLoop fuel o c oo oc st = .ok v st' → argsMidOk v = true
  fnArgsCore : ∀ o c need st v st',
    funcArgsCore fuel o c need st = .ok v st' → argsMidOk v = true
  fnArgsEntries : ∀ c need loc st v st',
    coreEntries fuel c need loc st = .ok v st' → argsMidOk v = true
  fnArgsInner : ∀ c loc st v st',
    coreInner fuel c loc st = .ok v st' → latexMidOk v = true
  latexLoop : ∀ st v st',
    parseLatexLoop fuel st = .ok v st' → latexMidOk v = true

/-! # Theorems -/

/-- Inversion of a successful `PRes.bind`. -/
theorem PRes.bind_eq_ok {α β : Type} {r : PRes α} {g : α → PState → PRes β}
    {v : β} {s' : PState} (h : r.bind g = .ok v s') :
    ∃ a s, r = .ok a s ∧ g a s = .ok v s' := by
  cases r with
  | ok a s => exact ⟨a, s, rfl, h⟩
  | err e => exact PRes.noConfusion h
  | noFuel => exact PRes.noConfusion h

/-- String concatenation is associative. -/
theorem strAssoc (a b c : String) : a ++ b ++ c = a ++ (b ++ c) :=
  String.append_assoc a b c

/-- Claim C4: for each of the 16 macro-definition styles, the text
emitted by `function_def_to_string` begins with `\long` exactly when the
style has the long modifier, then `\outer` exactly when it has the outer
modifier (so `\outer\long` never appears), then exactly one definer
keyword chosen totally from the style: `\xdef` when both expand and
global, `\gdef` when global only, `\edef` when expand only, `\def`
otherwise. -/
theorem function_def_prefix_order (kind : FunctionDefKind) (name args : String)
    (trim : TrimWhitespace) (body : List Statement) :
    ∃ rest, functionDefToString kind name args trim body =
      fdkHeadSpec kind ++ rest := by
  refine ⟨"\\" ++ name ++ args ++ "\x7b" ++ (if trim.start then "%\n" else "")
    ++ fnDefSelect trim.start trim.tEnd (latexToString body) ++ "%\n\x7d\n", ?_⟩
  obtain ⟨l, o, e, g⟩ := kind
  cases l <;> cases o <;> cases e <;> cases g <;> rfl

/-- Claim C5: the body text rendered between a macro definition's braces
is the concatenation of the body statements' renderings transformed by
exactly one of the four trim policies selected by the `(start, end)`
flags — unchanged / trailing trimmed / leading trimmed / both trimmed —
with the renderer's `%`-newline comment markers adjacent to the braces
made explicit. -/
theorem function_def_trim_lattice (kind : FunctionDefKind) (name args : String)
    (trim : TrimWhitespace) (body : List Statement) :
    ∃ pre, functionDefToString kind name args trim body =
      pre ++ "\x7b" ++ (if trim.start then "%\n" else "")
        ++ trimPolicySpec trim.start trim.tEnd (latexToString body)
        ++ "%\n\x7d\n" := by
  refine ⟨(if kind.hasProperty .LONG then "\\long" else "")
    ++ (if kind.hasProperty .OUTER then "\\outer" else "")
    ++ (if kind.hasProperty (.or .EXPAND .GLOBAL) then "\\xdef"
        else if kind.hasProperty .GLOBAL then "\\gdef"
        else if kind.hasProperty .EXPAND then "\\edef"
        else "\\def")
    ++ "\\" ++ name ++ args, ?_⟩
  obtain ⟨s, m, e⟩ := trim
  cases s <;> cases e <;> rfl

/-- The accumulator form of the argument-rendering loop agrees with the
specification-worded rendering. -/
theorem argListAppend_renderSpec (args : List (ArgNeed × List Statement)) :
    ∀ acc, argListAppend acc args = acc ++ argsRenderSpec args := by
  induction args with
  | nil =>
    intro acc
    simp [argListAppend, argsRenderSpec, String.append_empty]
  | cons a rest ih =>
    intro acc
    obtain ⟨need, body⟩ := a
    cases need <;>
      simp [argListAppend, argsRenderSpec, argEntrySpec, ih,
        String.append_assoc]

/-- Claim C8: a command invocation replays its stored argument list in
order with no reordering — each main argument in braces, each optional
argument in brackets, each star bare — and the star/optional/main
example renders exactly as written. -/
theorem arg_render_order :
    (∀ (name : String) (args : List (ArgNeed × List Statement)),
        latexFunctionToString name args = name ++ argsRenderSpec args) ∧
    latexFunctionToString "cmd"
      [(.StarArg, []), (.Optional, [.MainText "opt"]),
       (.MainArg, [.MainText "main"])] = "cmd*[opt]\x7bmain\x7d" :=
  ⟨fun name args => argListAppend_renderSpec args name, rfl⟩

/-- Claim C1 (code-bug evidence): a stream opened by the
document-start-mode marker sets the prevent-auto-end flag, yet
`parse_latex` still appends the synthesized document-end statement at
end of input — the flag is recorded in the final state but never
consulted. -/
theorem documentStartMode_still_appends_docEnd :
    parseLatex 10 (initState
      [⟨.DocumentStartMode, "nodoc", 0⟩, ⟨.Newline, "\n", 1⟩,
       ⟨.Text, "x", 2⟩]) =
      .ok [.MainText "x", .DocumentEnd] ⟨[], true, true, false, false⟩ := rfl

/-- Claim C2 (counterexample): a phantom `begenv` opening an environment
whose matching `endenv` never appears parses successfully into a
begin-phantom marker — no "not closed" error is raised. -/
theorem begenv_unclosed_parses_ok :
    parseLatex 10 (initState [⟨.Begenv, "begenv", 0⟩, ⟨.Text, "center", 1⟩]) =
      .ok [.BeginPhantomEnvironment "center" [] false]
        ⟨[], false, false, false, false⟩ := rfl

/-- Claim C2 (amended): a phantom `begenv` whose environment never sees
its matching close does not fail — only reaching end-of-input before the
environment name is read fails, and then with the generic end-of-file
error at the opening location (the dedicated begenv "not closed" branch
is unreachable behind an inverted compile-time guard); a named
unmatched `begenv` parses into a begin-phantom marker. -/
theorem begenv_eof_behavior :
    (∀ (fuel : Nat) (d p pd m : Bool) (lit : String) (loc : Span),
        parseEnvironment (fuel + 1) false ⟨[⟨.Begenv, lit, loc⟩], d, p, pd, m⟩ =
          .err ⟨.EOFErr, loc⟩) ∧
    parseLatex 10 (initState [⟨.Begenv, "begenv", 3⟩, ⟨.Text, "itemize", 4⟩]) =
      .ok [.BeginPhantomEnvironment "itemize" [] false]
        ⟨[], false, false, false, false⟩ :=
  ⟨fun _ _ _ _ _ _ _ => rfl, rfl⟩

/-- Claim C3 (counterexample): an `endenv` with no prior matching
`begenv` parses successfully into an end-phantom marker — no
"not opened" error is raised. -/
theorem endenv_without_open_parses_ok :
    parseStatement 10 (initState
      [⟨.Endenv, "endenv", 0⟩, ⟨.Text, "center", 1⟩]) =
      .ok (.EndPhantomEnvironment "center") ⟨[], false, false, false, false⟩ :=
  rfl

/-- Claim C3 (amended): the "not opened" error is produced for the other
closers — an end-of-definition token, an ends-with token, or a
math-text-end token with no matching opener — each listing its legal
openers and carrying the closer's span; the phantom `endenv` is not
matched at all. -/
theorem closer_tokens_not_opened :
    ∀ (fuel : Nat) (ts : List Token) (d p pd m : Bool) (lit : String)
      (loc : Span),
      (parseStatement (fuel + 1) ⟨⟨.EndDefinition, lit, loc⟩ :: ts, d, p, pd, m⟩ =
        .err ⟨.IsNotOpenedErr defStartList .EndDefinition, loc⟩) ∧
      (parseStatement (fuel + 1) ⟨⟨.EndsWith, lit, loc⟩ :: ts, d, p, pd, m⟩ =
        .err ⟨.IsNotOpenedErr [.Defenv, .Redefenv] .EndsWith, loc⟩) ∧
      (parseStatement (fuel + 1) ⟨⟨.MathTextEnd, lit, loc⟩ :: ts, d, p, pd, m⟩ =
        .err ⟨.IsNotOpenedErr [.MathTextStart] .MathTextEnd, loc⟩) :=
  fun _ _ _ _ _ _ _ _ => ⟨rfl, rfl, rfl⟩

/-- Claim C7: a superscript or subscript token is rejected with the
illegal-use error exactly when neither math mode nor a definition body
is active; with math mode on or inside a definition body it is accepted
as main text. -/
theorem superscript_subscript_gate :
    ∀ (fuel : Nat) (lit : String) (sp : Span) (ts : List Token)
      (d p pd m : Bool),
      ((parseStatement (fuel + 1) ⟨⟨.Superscript, lit, sp⟩ :: ts, d, p, pd, m⟩ =
          .err ⟨.IllegalUseErr .Superscript, sp⟩) ↔ m = false ∧ pd = false) ∧
      ((parseStatement (fuel + 1) ⟨⟨.Subscript, lit, sp⟩ :: ts, d, p, pd, m⟩ =
          .err ⟨.IllegalUseErr .Subscript, sp⟩) ↔ m = false ∧ pd = false) ∧
      (parseStatement (fuel + 1) ⟨⟨.Superscript, lit, sp⟩ :: ts, d, p, true, m⟩ =
        .ok (.MainText lit) ⟨ts, d, p, true, m⟩) ∧
      (parseStatement (fuel + 1) ⟨⟨.Subscript, lit, sp⟩ :: ts, d, p, pd, true⟩ =
        .ok (.MainText lit) ⟨ts, d, p, pd, true⟩) := by
  intro fuel lit sp ts d p pd m
  refine ⟨?_, ?_, ?_, rfl⟩
  · cases m <;> cases pd
    · exact iff_of_true rfl ⟨rfl, rfl⟩
    · exact iff_of_false (fun h => PRes.noConfusion h)
        (fun h => Bool.noConfusion h.2)
    · exact iff_of_false (fun h => PRes.noConfusion h)
        (fun h => Bool.noConfusion h.1)
    · exact iff_of_false (fun h => PRes.noConfusion h)
        (fun h => Bool.noConfusion h.1)
  · cases m <;> cases pd
    · exact iff_of_true rfl ⟨rfl, rfl⟩
    · exact iff_of_false (fun h => PRes.noConfusion h)
        (fun h => Bool.noConfusion h.2)
    · exact iff_of_false (fun h => PRes.noConfusion h)
        (fun h => Bool.noConfusion h.1)
    · exact iff_of_false (fun h => PRes.noConfusion h)
        (fun h => Bool.noConfusion h.1)
  · cases m <;> rfl

/-- Claim C10: a present-but-empty parenthesized option list is recorded
as an empty options list (not absence), and codegen then emits an empty
bracket pair, while a missing option list omits the brackets; the
end-to-end minimal docclass stream is evaluated as well. -/
theorem empty_option_list_rendered :
    (∀ (fuel : Nat) (rest : List Token) (d p pd m : Bool) (l1 l2 : Span)
        (lit1 lit2 : String),
        parseCommaArgs (fuel + 2)
          ⟨⟨.Lparen, lit1, l1⟩ :: ⟨.Rparen, lit2, l2⟩ :: rest, d, p, pd, m⟩ =
          .ok (some []) (eatWs false ⟨rest, d, p, pd, m⟩)) ∧
    (∀ name, docclassToString name (some []) =
        "\\documentclass[]\x7b" ++ name ++ "\x7d\n") ∧
    (∀ name, usepackageToString name (some []) =
        "\\usepackage[]\x7b" ++ name ++ "\x7d\n") ∧
    (∀ name, docclassToString name none =
        "\\documentclass\x7b" ++ name ++ "\x7d\n") ∧
    (∀ name, usepackageToString name none =
        "\\usepackage\x7b" ++ name ++ "\x7d\n") ∧
    parseLatex 10 (initState
      [⟨.Docclass, "docclass", 0⟩, ⟨.Space, " ", 1⟩, ⟨.Text, "article", 2⟩,
       ⟨.Lparen, "(", 3⟩, ⟨.Rparen, ")", 4⟩, ⟨.Newline, "\n", 5⟩]) =
      .ok [.DocumentClass "article" (some [])]
        ⟨[], false, false, false, false⟩ :=
  ⟨fun _ _ _ _ _ _ _ _ _ _ => rfl, fun _ => rfl, fun _ => rfl, fun _ => rfl,
   fun _ => rfl, rfl⟩

/-- The math-region body loop never produces the generic end-of-file
error: an inner end-of-file failure is converted to the bracket-mismatch
error, and every other error is forwarded unchanged. -/
theorem mathBodyLoop_no_eof (fuel : Nat) :
    ∀ (endTok : TokenType) (startLoc : Span) (st : PState),
      isEofErrRes (mathBodyLoop fuel endTok startLoc st) = false := by
  induction fuel with
  | zero => intro endTok startLoc st; rfl
  | succ f ih =>
    intro endTok startLoc st
    rw [mathBodyLoop]
    split
    · rfl
    · rcases hps : parseStatement f st with ⟨stmt, st1⟩ | e | _
      · have hml := ih endTok startLoc st1
        show isEofErrRes ((mathBodyLoop f endTok startLoc st1).bind
          (fun rest st2 => PRes.ok (stmt :: rest) st2)) = false
        cases hm : mathBodyLoop f endTok startLoc st1 with
        | ok rest st2 => rfl
        | err e2 => rw [hm] at hml; exact hml
        | noFuel => rfl
      · by_cases he : e.err_kind = .EOFErr
        · simp [he, isEofErrRes]
        · simp [he, isEofErrRes]
      · rfl

/-- Claim C6 (counterexample): a text-style math region opened at span 0
whose end token never appears can fail with an error other than the
bracket mismatch at the opening span — here a macro-definition opener
inside the region reports its own "not closed" error at its own span. -/
theorem math_region_non_bracket_error :
    parseLatex 10 (initState
      [⟨.TextMathStart, "$", 0⟩, ⟨.FunctionDef, "defun", 1⟩]) =
      .err ⟨.IsNotClosedErr [.FunctionDef] .EndDefinition, 1⟩ := rfl

/-- Claim C6 (amended): a math region opened with either delimiter never
fails with the generic end-of-file error; when the region's body parse
hits end-of-input directly, the dedicated bracket-mismatch error
carrying the opening delimiter's span is produced (evaluated on both
delimiter styles). -/
theorem math_region_no_generic_eof :
    (∀ (fuel : Nat) (lit : String) (loc : Span) (ts : List Token)
        (d p pd m : Bool),
        isEofErrRes (parseMathStmt fuel
          ⟨⟨.TextMathStart, lit, loc⟩ :: ts, d, p, pd, m⟩) = false) ∧
    (∀ (fuel : Nat) (lit : String) (loc : Span) (ts : List Token)
        (d p pd m : Bool),
        isEofErrRes (parseMathStmt fuel
          ⟨⟨.InlineMathStart, lit, loc⟩ :: ts, d, p, pd, m⟩) = false) ∧
    parseMathStmt 10 (initState [⟨.TextMathStart, "$", 5⟩, ⟨.Text, "x", 6⟩]) =
      .err ⟨.BracketMismatchErr .TextMathEnd, 5⟩ ∧
    parseMathStmt 10 (initState [⟨.InlineMathStart, "$$", 7⟩]) =
      .err ⟨.BracketMismatchErr .TextMathEnd, 7⟩ := by
  refine ⟨?_, ?_, rfl, rfl⟩
  · intro fuel lit loc ts d p pd m
    cases fuel with
    | zero => rfl
    | succ f =>
      show isEofErrRes
        (PRes.bind (mathBodyLoop f .TextMathEnd loc ⟨ts, d, p, pd, m⟩)
          (fun text st2 =>
            PRes.bind (expectPeek .TextMathEnd (peekSpan st2) st2)
              fun _ st3 =>
                PRes.ok (Statement.MathText MathState.Text text) st3)) = false
      have hml := mathBodyLoop_no_eof f .TextMathEnd loc ⟨ts, d, p, pd, m⟩
      cases hm : mathBodyLoop f .TextMathEnd loc ⟨ts, d, p, pd, m⟩ with
      | ok text st2 =>
        show isEofErrRes
          (PRes.bind (expectPeek .TextMathEnd (peekSpan st2) st2)
            fun _ st3 =>
              PRes.ok (Statement.MathText MathState.Text text) st3) = false
        unfold expectPeek
        split
        · rfl
        · rfl
      | err e =>
        rw [hm] at hml; exact hml
      | noFuel => rfl
  · intro fuel lit loc ts d p pd m
    cases fuel with
    | zero => rfl
    | succ f =>
      show isEofErrRes
        (PRes.bind (mathBodyLoop f .InlineMathEnd loc ⟨ts, d, p, pd, m⟩)
          (fun text st2 =>
            PRes.bind (expectPeek .InlineMathEnd (peekSpan st2) st2)
              fun _ st3 =>
                PRes.ok (Statement.MathText MathState.Inline text) st3)) = false
      have hml := mathBodyLoop_no_eof f .InlineMathEnd loc ⟨ts, d, p, pd, m⟩
      cases hm : mathBodyLoop f .InlineMathEnd loc ⟨ts, d, p, pd, m⟩ with
      | ok text st2 =>
        show isEofErrRes
          (PRes.bind (expectPeek .InlineMathEnd (peekSpan st2) st2)
            fun _ st3 =>
              PRes.ok (Statement.MathText MathState.Inline text) st3) = false
        unfold expectPeek
        split
        · rfl
        · rfl
      | err e =>
        rw [hm] at hml; exact hml
      | noFuel => rfl

/-- Inversion of a successful `PRes.bind`, as an iff for iterated
rewriting. -/
theorem PRes.bind_ok_iff {α β : Type} {r : PRes α} {g : α → PState → PRes β}
    {v : β} {s' : PState} :
    r.bind g = .ok v s' ↔ ∃ a s, r = .ok a s ∧ g a s = .ok v s' := by
  cases r with
  | ok a s =>
    constructor
    · intro h
      exact ⟨a, s, rfl, h⟩
    · rintro ⟨a1, s1, he, hg⟩
      cases he
      exact hg
  | err e =>
    constructor
    · intro h
      exact PRes.noConfusion h
    · rintro ⟨a1, s1, he, hg⟩
      exact PRes.noConfusion he
  | noFuel =>
    constructor
    · intro h
      exact PRes.noConfusion h
    · rintro ⟨a1, s1, he, hg⟩
      exact PRes.noConfusion he

/-- Mid-trim invariance distributes over list concatenation. -/
theorem latexMidOk_append : ∀ a b : List Statement,
    latexMidOk (a ++ b) = (latexMidOk a && latexMidOk b) := by
  intro a b
  induction a with
  | nil => simp [latexMidOk]
  | cons s rest ih => simp [latexMidOk, ih, Bool.and_assoc]

/-- Mid-trim invariance of argument lists distributes over
concatenation. -/
theorem argsMidOk_append : ∀ a b : List (ArgNeed × List Statement),
    argsMidOk (a ++ b) = (argsMidOk a && argsMidOk b) := by
  intro a b
  induction a with
  | nil => simp [argsMidOk]
  | cons s rest ih =>
    obtain ⟨need, body⟩ := s
    simp [argsMidOk, ih, Bool.and_assoc]

/-- Main-text statements trivially satisfy the mid-trim invariant. -/
theorem midOk_parseMainStmt {st : PState} {v : Statement} {st' : PState}
    (h : parseMainStmt st = .ok v st') : stmtMidOk v = true := by
  unfold parseMainStmt at h
  split at h
  · exact PRes.noConfusion h
  · cases h; simp [stmtMidOk]

/-- Integer literals trivially satisfy the mid-trim invariant. -/
theorem midOk_parseInteger {st : PState} {v : Statement} {st' : PState}
    (h : parseInteger st = .ok v st') : stmtMidOk v = true := by
  unfold parseInteger at h
  split at h
  · cases h; simp [stmtMidOk]
  · exact PRes.noConfusion h

/-- Float literals trivially satisfy the mid-trim invariant. -/
theorem midOk_parseFloat {st : PState} {v : Statement} {st' : PState}
    (h : parseFloat st = .ok v st') : stmtMidOk v = true := by
  unfold parseFloat at h
  split at h
  · cases h; simp [stmtMidOk]
  · exact PRes.noConfusion h

/-- Raw LaTeX passthrough trivially satisfies the mid-trim invariant. -/
theorem midOk_parseRawLatex {st : PState} {v : Statement} {st' : PState}
    (h : parseRawLatex st = .ok v st') : stmtMidOk v = true := by
  unfold parseRawLatex at h
  cases h; simp [stmtMidOk]

/-- End-phantom markers trivially satisfy the mid-trim invariant. -/
theorem midOk_parseEndPhantom {st : PState} {v : Statement} {st' : PState}
    (h : parseEndPhantomEnvironment st = .ok v st') : stmtMidOk v = true := by
  unfold parseEndPhantomEnvironment at h
  simp only [PRes.bind_ok_iff] at h
  obtain ⟨u, s, h1, h⟩ := h
  split at h
  · cases h; simp [stmtMidOk]
  · exact PRes.noConfusion h
  · exact PRes.noConfusion h

/-- Induction step for the statement loop of `parse_latex`. -/
theorem midOk_step_latexLoop (f : Nat) (ih : MidOkAll f) :
    ∀ st v st', parseLatexLoop (f + 1) st = .ok v st' → latexMidOk v = true := by
  intro st v st' h
  rw [parseLatexLoop] at h
  split at h
  · cases h; simp [latexMidOk]
  · simp only [PRes.bind_ok_iff] at h
    obtain ⟨stmt, s1, h1, rest, s2, h2, h⟩ := h
    cases h
    simp [latexMidOk, ih.stmt _ _ _ h1, ih.latexLoop _ _ _ h2]

/-- Induction step for `parse_docclass`. -/
theorem midOk_step_docclass (f : Nat) (ih : MidOkAll f) :
    ∀ st v st', parseDocclass (f + 1) st = .ok v st' → stmtMidOk v = true := by
  intro st v st' h
  rw [parseDocclass] at h
  simp only [PRes.bind_ok_iff] at h
  obtain ⟨u1, s1, h1, name, s2, h2, options, s3, h3, h⟩ := h
  cases h
  simp [stmtMidOk, ih.commaArgs _ _ _ h3]

/-- Induction step for `parse_usepackage`. -/
theorem midOk_step_usepkg (f : Nat) (ih : MidOkAll f) :
    ∀ st v st', parseUsepackage (f + 1) st = .ok v st' → stmtMidOk v = true := by
  intro st v st' h
  rw [parseUsepackage] at h
  simp only [PRes.bind_ok_iff] at h
  obtain ⟨u1, s1, h1, h⟩ := h
  split at h
  · exact ih.multiUsepkg _ _ _ h
  · simp only [PRes.bind_ok_iff] at h
    obtain ⟨name, s2, h2, options, s3, h3, h⟩ := h
    cases h
    simp [stmtMidOk, ih.commaArgs _ _ _ h3]

/-- Induction step for `parse_multiple_usepackages`. -/
theorem midOk_step_multiUsepkg (f : Nat) (ih : MidOkAll f) :
    ∀ st v st', parseMultiUsepackages (f + 1) st = .ok v st' →
      stmtMidOk v = true := by
  intro st v st' h
  rw [parseMultiUsepackages] at h
  simp only [PRes.bind_ok_iff] at h
  obtain ⟨u1, s1, h1, pkgs, s2, h2, u3, s3, h3, h⟩ := h
  cases h
  simp [stmtMidOk, ih.multiLoop _ _ _ h2]

/-- Induction step for the package-entry loop. -/
theorem midOk_step_multiLoop (f : Nat) (ih : MidOkAll f) :
    ∀ st v st', multiPkgLoop (f + 1) st = .ok v st' → latexMidOk v = true := by
  intro st v st' h
  rw [multiPkgLoop] at h
  split at h
  · cases h; simp [latexMidOk]
  · simp only [PRes.bind_ok_iff] at h
    obtain ⟨name, s1, h1, options, s2, h2, h⟩ := h
    split at h
    · split at h
      · cases h
        simp [latexMidOk, stmtMidOk, ih.commaArgs _ _ _ h2]
      · simp only [PRes.bind_ok_iff] at h
        obtain ⟨rest, s5, h5, h⟩ := h
        cases h
        simp [latexMidOk, stmtMidOk, ih.commaArgs _ _ _ h2,
          ih.multiLoop _ _ _ h5]
    · cases h
      simp [latexMidOk, stmtMidOk, ih.commaArgs _ _ _ h2]
    · exact PRes.noConfusion h
    · exact PRes.noConfusion h

/-- Induction step for `parse_environment`. -/
theorem midOk_step_env (f : Nat) (ih : MidOkAll f) :
    ∀ b st v st', parseEnvironment (f + 1) b st = .ok v st' →
      stmtMidOk v = true := by
  intro b st v st' h
  rw [parseEnvironment] at h
  simp only [PRes.bind_ok_iff] at h
  obtain ⟨addNewline, s1, hA, h⟩ := h
  split at h
  · -- the Text (name read) arm
    simp only [PRes.bind_ok_iff] at h
    obtain ⟨args, s6, hargs, textOpt, s11, hopt, h⟩ := h
    cases h
    split at hopt
    case isTrue hb =>
      subst hb
      simp only [PRes.bind_ok_iff] at hopt
      obtain ⟨u7, s8, h7, text, s9, h9, u10, s10, h10, hopt⟩ := hopt
      cases hopt
      simp [stmtMidOk, ih.fnArgs _ _ _ _ _ _ _ hargs,
        ih.envBody _ _ _ _ h9]
    case isFalse hb =>
      simp only [Bool.not_eq_true] at hb
      subst hb
      cases hopt
      simp [stmtMidOk, ih.fnArgs _ _ _ _ _ _ _ hargs]
  · split at h
    · exact PRes.noConfusion h
    · exact PRes.noConfusion h
  · exact PRes.noConfusion h

/-- Induction step for the phantom-environment body loop. -/
theorem midOk_step_envBody (f : Nat) (ih : MidOkAll f) :
    ∀ loc st v st', envBodyLoop (f + 1) loc st = .ok v st' →
      latexMidOk v = true := by
  intro loc st v st' h
  rw [envBodyLoop] at h
  split at h
  · cases h; simp [latexMidOk]
  · split at h
    · exact PRes.noConfusion h
    · simp only [PRes.bind_ok_iff] at h
      obtain ⟨stmt, s1, h1, rest, s2, h2, h⟩ := h
      cases h
      simp [latexMidOk, ih.stmt _ _ _ h1, ih.envBody _ _ _ _ h2]

/-- Induction step for `parse_math_stmt`. -/
theorem midOk_step_math (f : Nat) (ih : MidOkAll f) :
    ∀ st v st', parseMathStmt (f + 1) st = .ok v st' → stmtMidOk v = true := by
  intro st v st' h
  rw [parseMathStmt] at h
  split at h
  · simp only [PRes.bind_ok_iff] at h
    obtain ⟨u1, s1, h1, text, s2, h2, u3, s3, h3, h⟩ := h
    cases h
    simp [stmtMidOk, ih.mathBody _ _ _ _ _ h2]
  · simp only [PRes.bind_ok_iff] at h
    obtain ⟨u1, s1, h1, text, s2, h2, u3, s3, h3, h⟩ := h
    cases h
    simp [stmtMidOk, ih.mathBody _ _ _ _ _ h2]
  · exact PRes.noConfusion h
  · exact PRes.noConfusion h

/-- Induction step for the math-region body loop. -/
theorem midOk_step_mathBody (f : Nat) (ih : MidOkAll f) :
    ∀ et l st v st', mathBodyLoop (f + 1) et l st = .ok v st' →
      latexMidOk v = true := by
  intro et l st v st' h
  rw [mathBodyLoop] at h
  split at h
  · cases h; simp [latexMidOk]
  · split at h
    · rename_i stmt st1 heq
      simp only [PRes.bind_ok_iff] at h
      obtain ⟨rest, s2, h2, h⟩ := h
      cases h
      simp [latexMidOk, ih.stmt _ _ _ heq, ih.mathBody _ _ _ _ _ h2]
    · split at h
      · exact PRes.noConfusion h
      · exact PRes.noConfusion h
    · exact PRes.noConfusion h

/-- Induction step for `parse_text_in_math`. -/
theorem midOk_step_textInMath (f : Nat) (ih : MidOkAll f) :
    ∀ st v st', parseTextInMath (f + 1) st = .ok v st' →
      stmtMidOk v = true := by
  intro st v st' h
  rw [parseTextInMath] at h
  simp only [PRes.bind_ok_iff] at h
  obtain ⟨u1, s1, h1, text, s2, h2, u3, s3, h3, h⟩ := h
  split at h
  · cases h
    simp [stmtMidOk, latexMidOk_append, latexMidOk,
      ih.textInMathBody _ _ _ h2]
  · cases h
    simp [stmtMidOk, ih.textInMathBody _ _ _ h2]

/-- Induction step for the plain-text-in-math body loop. -/
theorem midOk_step_textInMathBody (f : Nat) (ih : MidOkAll f) :
    ∀ st v st', textInMathLoop (f + 1) st = .ok v st' →
      latexMidOk v = true := by
  intro st v st' h
  rw [textInMathLoop] at h
  split at h
  · cases h; simp [latexMidOk]
  · split at h
    · exact PRes.noConfusion h
    · simp only [PRes.bind_ok_iff] at h
      obtain ⟨stmt, s1, h1, rest, s2, h2, h⟩ := h
      cases h
      simp [latexMidOk, ih.stmt _ _ _ h1, ih.textInMathBody _ _ _ h2]

/-- Induction step for `parse_brace_stmt`. -/
theorem midOk_step_brace (f : Nat) (ih : MidOkAll f) :
    ∀ st v st', parseBraceStmt (f + 1) st = .ok v st' →
      stmtMidOk v = true := by
  intro st v st' h
  rw [parseBraceStmt] at h
  simp only [PRes.bind_ok_iff] at h
  obtain ⟨u1, s1, h1, h⟩ := h
  exact ih.braceBody _ _ _ _ _ _ _ (by simp [latexMidOk])
    (by simp [latexMidOk]) h

/-- Induction step for the brace-statement loop. -/
theorem midOk_step_braceBody (f : Nat) (ih : MidOkAll f) :
    ∀ loc b num den st v st', latexMidOk num = true → latexMidOk den = true →
      braceLoop (f + 1) loc b num den st = .ok v st' →
      stmtMidOk v = true := by
  intro loc b num den st v st' hnum hden h
  rw [braceLoop] at h
  split at h
  · exact PRes.noConfusion h
  · split at h
    · cases h
      cases b
      · simp [stmtMidOk, hnum]
      · simp [stmtMidOk, hnum, hden]
    · split at h
      · simp only [PRes.bind_ok_iff] at h
        obtain ⟨stmt, s2, h1, h⟩ := h
        exact ih.braceBody _ _ _ _ _ _ _ hnum
          (by simp [latexMidOk_append, latexMidOk, hden, ih.stmt _ _ _ h1]) h
      · simp only [PRes.bind_ok_iff] at h
        obtain ⟨stmt, s2, h1, h⟩ := h
        split at h
        · exact ih.braceBody _ _ _ _ _ _ _ hnum
            (by simp [latexMidOk_append, latexMidOk, hden, ih.stmt _ _ _ h1]) h
        · exact ih.braceBody _ _ _ _ _ _ _
            (by simp [latexMidOk_append, latexMidOk, hnum, ih.stmt _ _ _ h1])
            hden h

/-- Induction step for `parse_function_definition`. -/
theorem midOk_step_fnDef (f : Nat) (ih : MidOkAll f) :
    ∀ st v st', parseFunctionDefinition (f + 1) st = .ok v st' →
      stmtMidOk v = true := by
  intro st v st' h
  rw [parseFunctionDefinition] at h
  split at h
  · exact PRes.noConfusion h
  · split at h
    · exact PRes.noConfusion h
    · simp only [PRes.bind_ok_iff] at h
      obtain ⟨u1, s1, h1, h⟩ := h
      split at h
      case isTrue =>
        split at h
        · exact PRes.noConfusion h
        · split at h
          · exact PRes.noConfusion h
          · simp only [PRes.bind_ok_iff] at h
            obtain ⟨args, s5, hargs, body, s6, hbody, u7, s7, h7, h⟩ := h
            cases h
            simp [stmtMidOk, ih.defBody _ _ _ _ _ hbody]
      case isFalse =>
        split at h
        · exact PRes.noConfusion h
        · split at h
          · exact PRes.noConfusion h
          · simp only [PRes.bind_ok_iff] at h
            obtain ⟨args, s5, hargs, body, s6, hbody, u7, s7, h7, h⟩ := h
            cases h
            simp [stmtMidOk, ih.defBody _ _ _ _ _ hbody]

/-- Induction step for the macro-definition body loop. -/
theorem midOk_step_defBody (f : Nat) (ih : MidOkAll f) :
    ∀ loc lv st v st', defBodyLoop (f + 1) loc lv st = .ok v st' →
      latexMidOk v = true := by
  intro loc lv st v st' h
  rw [defBodyLoop] at h
  split at h
  · cases h; simp [latexMidOk]
  · split at h
    · exact PRes.noConfusion h
    · simp only [PRes.bind_ok_iff] at h
      obtain ⟨stmt, s2, h1, rest, s4, h2, h⟩ := h
      cases h
      simp [latexMidOk, ih.stmt _ _ _ h1, ih.defBody _ _ _ _ _ h2]

/-- Induction step for `parse_environment_definition`. -/
theorem midOk_step_envDef (f : Nat) (ih : MidOkAll f) :
    ∀ st v st', parseEnvironmentDefinition (f + 1) st = .ok v st' →
      stmtMidOk v = true := by
  intro st v st' h
  rw [parseEnvironmentDefinition] at h
  simp only [PRes.bind_ok_iff] at h
  obtain ⟨isRedefine, s0, h0, u1, s1, h1, h⟩ := h
  split at h
  case isTrue =>
    split at h
    · exact PRes.noConfusion h
    · split at h
      · exact PRes.noConfusion h
      · simp only [PRes.bind_ok_iff] at h
        obtain ⟨argPart, s5, hArg, beginPart, s6, hBegin, u7, s7, h7,
          endPart, s9, hEnd, u10, s10, h10, h⟩ := h
        cases h
        simp [stmtMidOk, ih.envDefArg _ _ _ _ hArg,
          ih.envDefBegin _ _ _ _ hBegin, ih.envDefEnd _ _ _ _ hEnd]
  case isFalse =>
    split at h
    · exact PRes.noConfusion h
    · split at h
      · exact PRes.noConfusion h
      · simp only [PRes.bind_ok_iff] at h
        obtain ⟨argPart, s5, hArg, beginPart, s6, hBegin, u7, s7, h7,
          endPart, s9, hEnd, u10, s10, h10, h⟩ := h
        cases h
        simp [stmtMidOk, ih.envDefArg _ _ _ _ hArg,
          ih.envDefBegin _ _ _ _ hBegin, ih.envDefEnd _ _ _ _ hEnd]

/-- Induction step for the environment-definition argument part. -/
theorem midOk_step_envDefArg (f : Nat) (ih : MidOkAll f) :
    ∀ loc st v st', envDefArgPart (f + 1) loc st = .ok v st' →
      optLatexMidOk v.2 = true := by
  intro loc st v st' h
  rw [envDefArgPart] at h
  split at h
  · simp only [PRes.bind_ok_iff] at h
    obtain ⟨u1, s1, h1, argnum, s3, h3, h⟩ := h
    split at h
    · simp only [PRes.bind_ok_iff] at h
      obtain ⟨u4, s4, h4, inner, s6, h6, u7, s7, h7, h⟩ := h
      cases h
      simp [optLatexMidOk, ih.envDefOpt _ _ _ _ h6]
    · simp only [PRes.bind_ok_iff] at h
      obtain ⟨u4, s4, h4, h⟩ := h
      cases h
      simp [optLatexMidOk]
    · exact PRes.noConfusion h
    · exact PRes.noConfusion h
  · cases h
    simp [optLatexMidOk]

/-- Induction step for the default-optional-argument loop. -/
theorem midOk_step_envDefOpt (f : Nat) (ih : MidOkAll f) :
    ∀ loc st v st', envDefOptLoop (f + 1) loc st = .ok v st' →
      latexMidOk v = true := by
  intro loc st v st' h
  rw [envDefOptLoop] at h
  split at h
  · cases h; simp [latexMidOk]
  · split at h
    · exact PRes.noConfusion h
    · simp only [PRes.bind_ok_iff] at h
      obtain ⟨stmt, s1, h1, rest, s2, h2, h⟩ := h
      cases h
      simp [latexMidOk, ih.stmt _ _ _ h1, ih.envDefOpt _ _ _ _ h2]

/-- Induction step for the environment-definition begin-body loop. -/
theorem midOk_step_envDefBegin (f : Nat) (ih : MidOkAll f) :
    ∀ loc st v st', envDefBeginLoop (f + 1) loc st = .ok v st' →
      latexMidOk v = true := by
  intro loc st v st' h
  rw [envDefBeginLoop] at h
  split at h
  · simp only [PRes.bind_ok_iff] at h
    obtain ⟨stmt, s1, h1, rest, s2, h2, h⟩ := h
    cases h
    simp [latexMidOk, ih.envDef _ _ _ h1, ih.envDefBegin _ _ _ _ h2]
  · simp only [PRes.bind_ok_iff] at h
    obtain ⟨stmt, s1, h1, rest, s2, h2, h⟩ := h
    cases h
    simp [latexMidOk, ih.envDef _ _ _ h1, ih.envDefBegin _ _ _ _ h2]
  · cases h; simp [latexMidOk]
  · exact PRes.noConfusion h
  · exact PRes.noConfusion h
  · simp only [PRes.bind_ok_iff] at h
    obtain ⟨stmt, s2, h1, rest, s4, h2, h⟩ := h
    cases h
    simp [latexMidOk, ih.stmt _ _ _ h1, ih.envDefBegin _ _ _ _ h2]

/-- Induction step for the environment-definition end-body loop. -/
theorem midOk_step_envDefEnd (f : Nat) (ih : MidOkAll f) :
    ∀ loc st v st', envDefEndLoop (f + 1) loc st = .ok v st' →
      latexMidOk v = true := by
  intro loc st v st' h
  rw [envDefEndLoop] at h
  split at h
  · simp only [PRes.bind_ok_iff] at h
    obtain ⟨stmt, s1, h1, rest, s2, h2, h⟩ := h
    cases h
    simp [latexMidOk, ih.envDef _ _ _ h1, ih.envDefEnd _ _ _ _ h2]
  · simp only [PRes.bind_ok_iff] at h
    obtain ⟨stmt, s1, h1, rest, s2, h2, h⟩ := h
    cases h
    simp [latexMidOk, ih.envDef _ _ _ h1, ih.envDefEnd _ _ _ _ h2]
  · cases h; simp [latexMidOk]
  · exact PRes.noConfusion h
  · exact PRes.noConfusion h
  · simp only [PRes.bind_ok_iff] at h
    obtain ⟨stmt, s2, h1, rest, s4, h2, h⟩ := h
    cases h
    simp [latexMidOk, ih.stmt _ _ _ h1, ih.envDefEnd _ _ _ _ h2]

/-- Induction step for `parse_latex_function`. -/
theorem midOk_step_latexFn (f : Nat) (ih : MidOkAll f) :
    ∀ st v st', parseLatexFunction (f + 1) st = .ok v st' →
      stmtMidOk v = true := by
  intro st v st' h
  rw [parseLatexFunction] at h
  split at h
  · exact PRes.noConfusion h
  · simp only [PRes.bind_ok_iff] at h
    obtain ⟨args, s1, h1, h⟩ := h
    cases h
    simp [stmtMidOk, ih.fnArgs _ _ _ _ _ _ _ h1]

/-- Induction step for `parse_comma_args`. -/
theorem midOk_step_commaArgs (f : Nat) (ih : MidOkAll f) :
    ∀ st v st', parseCommaArgs (f + 1) st = .ok v st' →
      optsMidOk v = true := by
  intro st v st' h
  rw [parseCommaArgs] at h
  split at h
  · simp only [PRes.bind_ok_iff] at h
    obtain ⟨vec, s1, h1, u2, s2, h2, h⟩ := h
    cases h
    simp [optsMidOk, ih.commaLoop _ _ _ _ h1]
  · cases h
    simp [optsMidOk]

/-- Induction step for the option loop of `parse_comma_args`. -/
theorem midOk_step_commaLoop (f : Nat) (ih : MidOkAll f) :
    ∀ loc st v st', commaArgsLoop (f + 1) loc st = .ok v st' →
      listLatexMidOk v = true := by
  intro loc st v st' h
  rw [commaArgsLoop] at h
  split at h
  · cases h; simp [listLatexMidOk]
  · split at h
    · exact PRes.noConfusion h
    · simp only [PRes.bind_ok_iff] at h
      obtain ⟨tmp, s2, h2, h⟩ := h
      split at h
      · cases h
        simp [listLatexMidOk, ih.commaInner _ _ _ _ h2]
      · simp only [PRes.bind_ok_iff] at h
        obtain ⟨u4, s4, h4, rest, s6, h6, h⟩ := h
        cases h
        simp [listLatexMidOk, ih.commaInner _ _ _ _ h2,
          ih.commaLoop _ _ _ _ h6]

/-- Induction step for the inner statement loop of `parse_comma_args`. -/
theorem midOk_step_commaInner (f : Nat) (ih : MidOkAll f) :
    ∀ loc st v st', commaArgsInner (f + 1) loc st = .ok v st' →
      latexMidOk v = true := by
  intro loc st v st' h
  rw [commaArgsInner] at h
  split at h
  · cases h; simp [latexMidOk]
  · simp only [] at h
    split at h
    · exact PRes.noConfusion h
    · split at h
      · cases h; simp [latexMidOk]
      · simp only [PRes.bind_ok_iff] at h
        obtain ⟨stmt, s2, h2, rest, s3, h3, h⟩ := h
        cases h
        simp [latexMidOk, ih.stmt _ _ _ h2, ih.commaInner _ _ _ _ h3]

/-- Induction step for `parse_function_args`. -/
theorem midOk_step_fnArgs (f : Nat) (ih : MidOkAll f) :
    ∀ o c oo oc st v st', parseFunctionArgs (f + 1) o c oo oc st = .ok v st' →
      argsMidOk v = true := by
  intro o c oo oc st v st' h
  rw [parseFunctionArgs] at h
  split at h
  · exact ih.fnArgsLoop _ _ _ _ _ _ _ h
  · cases h; simp [argsMidOk]

/-- Induction step for the argument-group loop. -/
theorem midOk_step_fnArgsLoop (f : Nat) (ih : MidOkAll f) :
    ∀ o c oo oc st v st', funcArgsLoop (f + 1) o c oo oc st = .ok v st' →
      argsMidOk v = true := by
  intro o c oo oc st v st' h
  rw [funcArgsLoop] at h
  split at h
  · simp only [PRes.bind_ok_iff] at h
    obtain ⟨entries, s1, h1, h⟩ := h
    split at h
    · cases h
      exact ih.fnArgsCore _ _ _ _ _ _ h1
    · simp only [PRes.bind_ok_iff] at h
      obtain ⟨rest, s2, h2, h⟩ := h
      cases h
      simp [argsMidOk_append, ih.fnArgsCore _ _ _ _ _ _ h1,
        ih.fnArgsLoop _ _ _ _ _ _ _ h2]
  · split at h
    · simp only [PRes.bind_ok_iff] at h
      obtain ⟨entries, s1, h1, h⟩ := h
      split at h
      · cases h
        exact ih.fnArgsCore _ _ _ _ _ _ h1
      · simp only [PRes.bind_ok_iff] at h
        obtain ⟨rest, s2, h2, h⟩ := h
        cases h
        simp [argsMidOk_append, ih.fnArgsCore _ _ _ _ _ _ h1,
          ih.fnArgsLoop _ _ _ _ _ _ _ h2]
    · split at h
      · simp only [] at h
        split at h
        · cases h
          simp [argsMidOk, latexMidOk]
        · simp only [PRes.bind_ok_iff] at h
          obtain ⟨rest, s2, h2, h⟩ := h
          cases h
          simp [argsMidOk, latexMidOk, ih.fnArgsLoop _ _ _ _ _ _ _ h2]
      · cases h
        simp [argsMidOk]

/-- Induction step for `parse_function_args_core`. -/
theorem midOk_step_fnArgsCore (f : Nat) (ih : MidOkAll f) :
    ∀ o c need st v st', funcArgsCore (f + 1) o c need st = .ok v st' →
      argsMidOk v = true := by
  intro o c need st v st' h
  rw [funcArgsCore] at h
  simp only [PRes.bind_ok_iff] at h
  obtain ⟨u1, s1, h1, entries, s2, h2, u3, s3, h3, h⟩ := h
  cases h
  exact ih.fnArgsEntries _ _ _ _ _ _ h2

/-- Induction step for the entry loop of `parse_function_args_core`. -/
theorem midOk_step_fnArgsEntries (f : Nat) (ih : MidOkAll f) :
    ∀ c need loc st v st', coreEntries (f + 1) c need loc st = .ok v st' →
      argsMidOk v = true := by
  intro c need loc st v st' h
  rw [coreEntries] at h
  simp only [PRes.bind_ok_iff] at h
  obtain ⟨tmp, s1, h1, h⟩ := h
  split at h
  · simp only [PRes.bind_ok_iff] at h
    obtain ⟨rest, s3, h3, h⟩ := h
    cases h
    simp [argsMidOk, ih.fnArgsInner _ _ _ _ _ h1,
      ih.fnArgsEntries _ _ _ _ _ _ h3]
  · cases h
    simp [argsMidOk, ih.fnArgsInner _ _ _ _ _ h1]

/-- Induction step for the statement loop of one argument entry. -/
theorem midOk_step_fnArgsInner (f : Nat) (ih : MidOkAll f) :
    ∀ c loc st v st', coreInner (f + 1) c loc st = .ok v st' →
      latexMidOk v = true := by
  intro c loc st v st' h
  rw [coreInner] at h
  split at h
  · cases h; simp [latexMidOk]
  · split at h
    · exact PRes.noConfusion h
    · simp only [PRes.bind_ok_iff] at h
      obtain ⟨stmt, s1, h1, rest, s2, h2, h⟩ := h
      cases h
      simp [latexMidOk, ih.stmt _ _ _ h1, ih.fnArgsInner _ _ _ _ _ h2]

/-- Induction step for `parse_statement`. -/
theorem midOk_step_stmt (f : Nat) (ih : MidOkAll f) :
    ∀ st v st', parseStatement (f + 1) st = .ok v st' →
      stmtMidOk v = true := by
  intro st v st' h
  rw [parseStatement] at h
  split at h <;>
    first
    | exact PRes.noConfusion h
    | exact midOk_parseMainStmt h
    | exact midOk_parseRawLatex h
    | exact midOk_parseInteger h
    | exact midOk_parseFloat h
    | exact midOk_parseEndPhantom h
    | exact ih.env _ _ _ _ h
    | exact ih.math _ _ _ h
    | exact ih.textInMath _ _ _ h
    | exact ih.brace _ _ _ h
    | exact ih.fnDef _ _ _ h
    | exact ih.envDef _ _ _ h
    | exact ih.latexFn _ _ _ h
    | (cases h; simp [stmtMidOk])
    | (split at h <;>
        first
        | exact ih.docclass _ _ _ h
        | exact ih.usepkg _ _ _ h
        | exact midOk_parseMainStmt h
        | exact PRes.noConfusion h
        | (cases h; simp [stmtMidOk]))
    | (simp only [PRes.bind_ok_iff] at h
       obtain ⟨a, s, h1, h2⟩ := h
       exact ih.stmt _ _ _ h2)

/-- The mid-trim invariant holds at every fuel. -/
theorem midOkAll : ∀ fuel, MidOkAll fuel := by
  intro fuel
  induction fuel with
  | zero =>
    exact {
      stmt := fun _ _ _ h => PRes.noConfusion h
      docclass := fun _ _ _ h => PRes.noConfusion h
      usepkg := fun _ _ _ h => PRes.noConfusion h
      multiUsepkg := fun _ _ _ h => PRes.noConfusion h
      multiLoop := fun _ _ _ h => PRes.noConfusion h
      env := fun _ _ _ _ h => PRes.noConfusion h
      envBody := fun _ _ _ _ h => PRes.noConfusion h
      math := fun _ _ _ h => PRes.noConfusion h
      mathBody := fun _ _ _ _ _ h => PRes.noConfusion h
      textInMath := fun _ _ _ h => PRes.noConfusion h
      textInMathBody := fun _ _ _ h => PRes.noConfusion h
      brace := fun _ _ _ h => PRes.noConfusion h
      braceBody := fun _ _ _ _ _ _ _ _ _ h => PRes.noConfusion h
      fnDef := fun _ _ _ h => PRes.noConfusion h
      defBody := fun _ _ _ _ _ h => PRes.noConfusion h
      envDef := fun _ _ _ h => PRes.noConfusion h
      envDefArg := fun _ _ _ _ h => PRes.noConfusion h
      envDefOpt := fun _ _ _ _ h => PRes.noConfusion h
      envDefBegin := fun _ _ _ _ h => PRes.noConfusion h
      envDefEnd := fun _ _ _ _ h => PRes.noConfusion h
      latexFn := fun _ _ _ h => PRes.noConfusion h
      commaArgs := fun _ _ _ h => PRes.noConfusion h
      commaLoop := fun _ _ _ _ h => PRes.noConfusion h
      commaInner := fun _ _ _ _ h => PRes.noConfusion h
      fnArgs := fun _ _ _ _ _ _ _ h => PRes.noConfusion h
      fnArgsLoop := fun _ _ _ _ _ _ _ h => PRes.noConfusion h
      fnArgsCore := fun _ _ _ _ _ _ h => PRes.noConfusion h
      fnArgsEntries := fun _ _ _ _ _ _ h => PRes.noConfusion h
      fnArgsInner := fun _ _ _ _ _ h => PRes.noConfusion h
      latexLoop := fun _ _ _ h => PRes.noConfusion h }
  | succ f ih =>
    exact {
      stmt := midOk_step_stmt f ih
      docclass := midOk_step_docclass f ih
      usepkg := midOk_step_usepkg f ih
      multiUsepkg := midOk_step_multiUsepkg f ih
      multiLoop := midOk_step_multiLoop f ih
      env := midOk_step_env f ih
      envBody := midOk_step_envBody f ih
      math := midOk_step_math f ih
      mathBody := midOk_step_mathBody f ih
      textInMath := midOk_step_textInMath f ih
      textInMathBody := midOk_step_textInMathBody f ih
      brace := midOk_step_brace f ih
      braceBody := midOk_step_braceBody f ih
      fnDef := midOk_step_fnDef f ih
      defBody := midOk_step_defBody f ih
      envDef := midOk_step_envDef f ih
      envDefArg := midOk_step_envDefArg f ih
      envDefOpt := midOk_step_envDefOpt f ih
      envDefBegin := midOk_step_envDefBegin f ih
      envDefEnd := midOk_step_envDefEnd f ih
      latexFn := midOk_step_latexFn f ih
      commaArgs := midOk_step_commaArgs f ih
      commaLoop := midOk_step_commaLoop f ih
      commaInner := midOk_step_commaInner f ih
      fnArgs := midOk_step_fnArgs f ih
      fnArgsLoop := midOk_step_fnArgsLoop f ih
      fnArgsCore := midOk_step_fnArgsCore f ih
      fnArgsEntries := midOk_step_fnArgsEntries f ih
      fnArgsInner := midOk_step_fnArgsInner f ih
      latexLoop := midOk_step_latexLoop f ih }

/-- Claim C9: every environment-definition statement constructed by
`parse_environment_definition` has its mid trim flag populated, the
invariant holds throughout every AST produced by a successful
`parse_latex`, and the absent-mid fatal branches of
`environment_def_to_string` are never taken when mid is populated — so
codegen never reaches its internal-invariant failure on a parsed AST. -/
theorem env_define_mid_populated :
    (∀ (fuel : Nat) (st : PState) (stmt : Statement) (st' : PState),
        parseEnvironmentDefinition fuel st = .ok stmt st' →
        stmtMidOk stmt = true) ∧
    (∀ (fuel : Nat) (st : PState) (l : List Statement) (st' : PState),
        parseLatex fuel st = .ok l st' → latexMidOk l = true) ∧
    (∀ (s : Bool) (m : Option Bool) (e : Bool) (t : String),
        m.isSome = true →
        (envTrimBegin s m t).isSome = true ∧
        (envTrimEnd m e t).isSome = true) := by
  refine ⟨?_, ?_, ?_⟩
  · intro fuel st stmt st' h
    exact (midOkAll fuel).envDef _ _ _ h
  · intro fuel st l st' h
    unfold parseLatex at h
    simp only [PRes.bind_ok_iff] at h
    obtain ⟨l1, s1, h1, h⟩ := h
    cases h
    split
    · exact (midOkAll fuel).latexLoop _ _ _ h1
    · simp [latexMidOk_append, latexMidOk, stmtMidOk,
        (midOkAll fuel).latexLoop _ _ _ h1]
  · intro s m e t hm
    cases m with
    | none => exact Bool.noConfusion hm
    | some b => cases s <;> cases e <;> cases b <;> exact ⟨rfl, rfl⟩

/-- Claim C9 witness: the invariant theorem applied to a concrete
environment-definition parse, a concrete whole-stream parse, and
concrete populated trim flags. -/
theorem env_define_mid_populated_witness :
    stmtMidOk (Statement.EnvironmentDefine false "myenv" 0 none
      ⟨true, some true, true⟩ [.MainText "A"] [.MainText "B"]) = true ∧
    latexMidOk [Statement.MainText "hi"] = true ∧
    ((envTrimBegin true (some true) " a ").isSome = true ∧
      (envTrimEnd (some true) true " a ").isSome = true) :=
  ⟨env_define_mid_populated.1 10 (initState
      [⟨.Defenv, "defenv", 0⟩, ⟨.Space, " ", 1⟩, ⟨.Text, "myenv", 2⟩,
       ⟨.Space, " ", 3⟩, ⟨.Text, "A", 4⟩, ⟨.EndsWith, "endswith", 5⟩,
       ⟨.Text, "B", 6⟩, ⟨.EndDefinition, "enddef", 7⟩])
      (Statement.EnvironmentDefine false "myenv" 0 none
        ⟨true, some true, true⟩ [.MainText "A"] [.MainText "B"])
      ⟨[], false, false, false, false⟩ (by rfl),
   env_define_mid_populated.2.1 10 (initState [⟨.Text, "hi", 0⟩])
      [Statement.MainText "hi"] ⟨[], false, false, false, false⟩ (by rfl),
   env_define_mid_populated.2.2 true (some true) true " a " (by rfl)⟩
